/-
Verification of the ROS-to-Java message code generator
(message_conversion: java_class_spec.py, generate_spec.py, code_artifacts.py).

The Python modules are shallowly embedded: classes become inductive types
(with an explicit Python-runtime-class tag where subclassing matters),
dicts become insertion-ordered association lists, exceptions become
Option/Except, and the module-level import machinery becomes an explicit
resolver oracle passed as a function argument.
-/
import Mathlib

/-! ## Python values (constants.py: PythonPrimitive) -/

/-- Embedding of `PythonPrimitive = Union[bool, bytes, int, float, str]`.
Floats are carried as their literal text (no float arithmetic occurs in the
generator; floats are only compared and rendered). -/
inductive PyValue where
  | pyBool (b : Bool)
  | pyInt (n : Int)
  | pyFloat (lit : String)
  | pyStr (s : String)
  | pyBytes (s : String)
deriving DecidableEq

/-- Python `==` on values, including the `bool`/`int` numeric cross-equality
(`True == 1`). Floats compare by their literal. -/
def pyValueEq : PyValue → PyValue → Bool
  | .pyBool a, .pyBool b => a == b
  | .pyBool a, .pyInt n => (if a then (1 : Int) else 0) == n
  | .pyInt n, .pyBool a => n == (if a then (1 : Int) else 0)
  | .pyInt a, .pyInt b => a == b
  | .pyFloat a, .pyFloat b => a == b
  | .pyStr a, .pyStr b => a == b
  | .pyBytes a, .pyBytes b => a == b
  | _, _ => false

/-! ## Primitive enumerations (constants.py) -/

/-- Embedding of `class JavaPrimitive(Enum)`; `javaString` stands for the
Python member named `String`. -/
inductive JavaPrimitive where
  | boolean | byte | char | short | int | long | float | double | javaString
deriving DecidableEq

/-- The `.value` attribute of each `JavaPrimitive` member. -/
def JavaPrimitive.value : JavaPrimitive → String
  | .boolean => "boolean"
  | .byte => "byte"
  | .char => "char"
  | .short => "short"
  | .int => "int"
  | .long => "long"
  | .float => "float"
  | .double => "double"
  | .javaString => "java.lang.String"

/-- Embedding of `class RosPrimitive(Enum)`. -/
inductive RosPrimitive where
  | bool | byte | char | int8 | uint8 | int16 | uint16 | int32 | uint32
  | int64 | uint64 | float32 | float64 | string | time | duration
deriving DecidableEq

/-- Embedding of the `RosPrimitive(data_type)` enum constructor: `some` on a
member value string, `none` where Python raises `ValueError`. -/
def rosPrimitiveOfString : String → Option RosPrimitive
  | "bool" => some .bool
  | "byte" => some .byte
  | "char" => some .char
  | "int8" => some .int8
  | "uint8" => some .uint8
  | "int16" => some .int16
  | "uint16" => some .uint16
  | "int32" => some .int32
  | "uint32" => some .uint32
  | "int64" => some .int64
  | "uint64" => some .uint64
  | "float32" => some .float32
  | "float64" => some .float64
  | "string" => some .string
  | "time" => some .time
  | "duration" => some .duration
  | _ => none

/-- Embedding of `ROS_TO_JAVA_PRIMITIVE_MAPPING`. -/
def rosToJavaPrimitive : RosPrimitive → JavaPrimitive
  | .bool => .boolean
  | .int8 => .byte
  | .byte => .byte
  | .char => .char
  | .uint8 => .char
  | .int16 => .short
  | .uint16 => .short
  | .int32 => .int
  | .uint32 => .int
  | .int64 => .long
  | .uint64 => .long
  | .float32 => .float
  | .float64 => .double
  | .string => .javaString
  | .time => .long
  | .duration => .long

/-! ## Ordered dictionaries

Python dicts are embedded as insertion-ordered association lists: an update
on a present key replaces the value in place, a new key is appended. -/

/-- Embedding of `d[k] = v` on a Python dict. -/
def dictInsert {α : Type} (k : String) (v : α) : List (String × α) → List (String × α)
  | [] => [(k, v)]
  | (k', v') :: rest => if k' = k then (k, v) :: rest else (k', v') :: dictInsert k v rest

/-- Embedding of `d[k]` / `k in d` on a Python dict. -/
def dictLookup {α : Type} (k : String) : List (String × α) → Option α
  | [] => none
  | (k', v') :: rest => if k' = k then some v' else dictLookup k rest

/-- Embedding of `d.keys()` (as an ordered list; key views compare as sets). -/
def keysOf {α : Type} (l : List (String × α)) : List String := l.map Prod.fst

/-- Python dict key views compare as sets: `d1.keys() == d2.keys()`. -/
def keySetEq (a b : List String) : Bool := a.all (b.contains ·) && b.all (a.contains ·)

/-! ## The class-spec tree (java_class_spec.py)

`JavaTimeSpec` and `JavaDurationSpec` are Python subclasses of
`JavaClassSpec`; the code distinguishes them with exact-type checks
(`type(x) == JavaClassSpec`), so each node carries its runtime class. -/

/-- The Python runtime class of a spec object: `JavaClassSpec` itself or one
of its two subclasses. -/
inductive PyCls where
  | base | time | duration
deriving DecidableEq

mutual
/-- Embedding of `class JavaClassSpec` state: `fields` and `constants` are
insertion-ordered dicts, `msg_type` and `size` the constructor arguments,
`cls` the runtime class tag. -/
inductive JavaClassSpec where
  | mk (cls : PyCls) (msg_type : String) (size : Int)
      (fields : List (String × JavaField)) (constants : List (String × PyValue)) : JavaClassSpec
/-- A value of the `fields` dict: either a `JavaMessageField` dataclass or a
nested spec object. -/
inductive JavaField where
  | msgField (value : PyValue) (msg_type : JavaPrimitive) (size : Int) : JavaField
  | sub (spec : JavaClassSpec) : JavaField
end

/-- The `cls` runtime-class tag of a spec. -/
def JavaClassSpec.cls : JavaClassSpec → PyCls
  | .mk c _ _ _ _ => c

/-- The `msg_type` attribute of a spec. -/
def JavaClassSpec.msg_type : JavaClassSpec → String
  | .mk _ m _ _ _ => m

/-- The `size` attribute of a spec. -/
def JavaClassSpec.size : JavaClassSpec → Int
  | .mk _ _ s _ _ => s

/-- The `fields` dict of a spec. -/
def JavaClassSpec.fields : JavaClassSpec → List (String × JavaField)
  | .mk _ _ _ f _ => f

/-- The `constants` dict of a spec. -/
def JavaClassSpec.constants : JavaClassSpec → List (String × PyValue)
  | .mk _ _ _ _ c => c

/-- Embedding of `JavaClassSpec.__init__(msg_type_name, size)`. -/
def JavaClassSpec.new (msg_type_name : String) (size : Int) : JavaClassSpec :=
  .mk .base msg_type_name size [] []

/-- Embedding of `JavaClassSpec.add_constant`. -/
def JavaClassSpec.add_constant (spec : JavaClassSpec) (name : String) (value : PyValue) : JavaClassSpec :=
  match spec with
  | .mk c m s f cs => .mk c m s f (dictInsert name value cs)

/-- Embedding of `JavaClassSpec.add_field`. -/
def JavaClassSpec.add_field (spec : JavaClassSpec) (name : String) (value : PyValue)
    (msg_type : JavaPrimitive) (size : Int) : JavaClassSpec :=
  match spec with
  | .mk c m s f cs => .mk c m s (dictInsert name (.msgField value msg_type size) f) cs

/-- Embedding of `JavaClassSpec.add_sub_spec`. -/
def JavaClassSpec.add_sub_spec (spec : JavaClassSpec) (name : String) (sub : JavaClassSpec) : JavaClassSpec :=
  match spec with
  | .mk c m s f cs => .mk c m s (dictInsert name (.sub sub) f) cs

/-- Embedding of `JavaTimeSpec()`: runtime class `time`, `msg_type` "Time",
scalar size, two scalar int fields `secs` and `nsecs` with default 0. -/
def javaTimeSpec : JavaClassSpec :=
  (((JavaClassSpec.mk .time "Time" (-1) [] []).add_field "secs" (.pyInt 0) .int (-1)).add_field
    "nsecs" (.pyInt 0) .int (-1))

/-- Embedding of `JavaDurationSpec()`: runtime class `duration`, `msg_type`
"Duration", scalar size, two scalar int fields `secs` and `nsecs` default 0. -/
def javaDurationSpec : JavaClassSpec :=
  (((JavaClassSpec.mk .duration "Duration" (-1) [] []).add_field "secs" (.pyInt 0) .int (-1)).add_field
    "nsecs" (.pyInt 0) .int (-1))

/-- The result of Python's `type(x)` on a field value, as used by the exact
type checks in `__eq__` and `filter_unique_objects`. -/
inductive PyType where
  | javaMessageFieldTy | javaClassSpecTy | javaTimeSpecTy | javaDurationSpecTy
deriving DecidableEq

/-- Runtime type of a `fields` dict value. -/
def pyTypeOf : JavaField → PyType
  | .msgField .. => .javaMessageFieldTy
  | .sub s =>
    match s.cls with
    | .base => .javaClassSpecTy
    | .time => .javaTimeSpecTy
    | .duration => .javaDurationSpecTy

mutual
/-- Embedding of `JavaClassSpec.__eq__`: the other object must be exactly a
`JavaClassSpec` (not a subclass), the field-name key sets must agree, and
each field must pass `fieldPairOk` against its same-named counterpart.
`msg_type`, `size` and `constants` are not consulted. -/
def specEq : JavaClassSpec → JavaClassSpec → Bool
  | .mk _ _ _ afields _, .mk bcls _ _ bfields _ =>
    if bcls = .base then
      keySetEq (keysOf afields) (keysOf bfields) && fieldsMatch afields bfields
    else
      false
termination_by a _ => sizeOf a

/-- The `for name, field in self.fields.items()` loop of `__eq__`: each of
the left spec's entries is compared with the same-named entry on the right. -/
def fieldsMatch : List (String × JavaField) → List (String × JavaField) → Bool
  | [], _ => true
  | (name, f) :: rest, bfields =>
    (match dictLookup name bfields with
     | none => false
     | some g => fieldPairOk f g) && fieldsMatch rest bfields
termination_by l _ => sizeOf l

/-- One iteration of the `__eq__` loop body: runtime types must agree; for
`JavaMessageField`s the value and primitive kind must agree (the size is not
checked); for plain `JavaClassSpec`s recurse; for the time/duration
subclasses no further check is performed. -/
def fieldPairOk : JavaField → JavaField → Bool
  | f, g =>
    if pyTypeOf f = pyTypeOf g then
      match f, g with
      | .msgField v ty _, .msgField w ty' _ => pyValueEq v w && ty == ty'
      | .sub s, .sub t => if s.cls = .base then specEq s t else true
      | _, _ => true
    else false
termination_by f _ => sizeOf f
end

/-! ## Resolved message descriptors (ros_message.py and the import boundary)

A `RosMessage` models what the code observes on an imported message class
and its default instance: the zip of `__slots__` with `_slot_types`, each
slot's current value (`getattr`), and the message-level constants that
`get_message_constants` extracts by class introspection. The reflection that
produces these is the external resolver boundary. -/

structure RosMessage where
  slotPairs : List (String × String × PyValue)
  messageConstants : List (String × PyValue)

/-- Embedding of `get_message_constants` at the descriptor boundary: the
introspection over class attributes is external, its result is carried on
the descriptor. -/
def get_message_constants (msg_instance : RosMessage) : List (String × PyValue) :=
  msg_instance.messageConstants

/-- Structural prefix test on character lists (Python `startswith`). -/
def leadsWith : List Char → List Char → Bool
  | [], _ => true
  | _ :: _, [] => false
  | p :: ps, c :: cs => p = c && leadsWith ps cs

/-- Embedding of Python `s.split(sep)` for a one-character separator (the
code splits only on `/` and `.`): maximal runs between separators, with
empty parts for leading, trailing and doubled separators. -/
def pySplitChar (sep : Char) : List Char → List String
  | [] => [""]
  | c :: rest =>
    let r := pySplitChar sep rest
    if c = sep then "" :: r
    else
      match r with
      | [] => [⟨[c]⟩]
      | s :: ss => (⟨c :: s.data⟩ : String) :: ss

/-- Embedding of Python `s.replace(old, new)` for one-character pattern and
replacement (the code only replaces `/` by `.`). -/
def pyReplaceChar (old new : Char) (cs : List Char) : List Char :=
  cs.map (fun c => if c = old then new else c)

/-! ## Resolver cache (generate_spec.py: get_msg_class) -/

/-- Embedding of `MsgClassCacheMap`. -/
abbrev MsgClassCache := List (String × RosMessage)

/-- Embedding of `get_msg_class`. The `import_module`/`getattr` lookup is an
external oracle `resolver` taking the computed module name and class name.
The returned triple carries the result, the updated cache, and whether the
external lookup was invoked; `.error` models the `ValueError` raised on a
malformed connection header. -/
def get_msg_class (resolver : String → String → RosMessage) (cache : MsgClassCache)
    (msg_type_name : String) : Except String (RosMessage × MsgClassCache × Bool) :=
  match dictLookup msg_type_name cache with
  | some cls => .ok (cls, cache, false)
  | none =>
    let connection_header := pySplitChar '/' msg_type_name.data
    if h : connection_header.length = 2 then
      let ros_pkg := connection_header.get ⟨0, by omega⟩ ++ ".msg"
      let msg_type := connection_header.get ⟨1, by omega⟩
      let msg_class := resolver ros_pkg msg_type
      .ok (msg_class, dictInsert msg_type_name msg_class cache, true)
    else
      .error ("Invalid connection header: " ++ msg_type_name)

/-! ## Type-tag classification (generate_spec.py) -/

/-- Embedding of `is_msg_type_list`: `msg_type_name.endswith("]")`, a
one-character suffix test, i.e. the last character is `]`. -/
def is_msg_type_list (msg_type_name : String) : Bool :=
  msg_type_name.data.getLast? = some ']' 

/-- Decimal value of a digit run, as `int(match.group(1))` computes it. -/
def decimalValue (ds : List Char) : Nat :=
  ds.foldl (fun a c => 10 * a + (c.toNat - 48)) 0

/-- Match `\[(\d+)\]` at the head of a character list: an opening bracket,
one or more decimal digits, a closing bracket; anything may follow (the
regex is not end-anchored). Returns the digit group's value. -/
def parseBracketSize : List Char → Option Nat
  | [] => none
  | c :: rest =>
    if c = '[' then
      let ds := rest.takeWhile Char.isDigit
      (match rest.dropWhile Char.isDigit with
       | d :: _ => if d = ']' ∧ ¬ ds.isEmpty then some (decimalValue ds) else none
       | [] => none)
    else none

/-- Rightmost successful `parseBracketSize` over the suffixes of `cs`. The
greedy `.+` of `re.search(r"^.+\[(\d+)\]", s)` backtracks from the right, so
the group that matches is the rightmost bracketed digit run (the caller
starts this scan at position 1 because `.+` consumes at least one char). -/
def scanBracketSizes : List Char → Option Nat
  | [] => none
  | c :: rest =>
    match scanBracketSizes rest with
    | some n => some n
    | none => parseBracketSize (c :: rest)

/-- Embedding of `get_list_size`: the digit group of
`re.search(r"^.+\[(\d+)\]", msg_type_name)`, or 0 when there is no match. -/
def get_list_size (msg_type_name : String) : Int :=
  match msg_type_name.data with
  | [] => 0
  | _ :: rest =>
    match scanBracketSizes rest with
    | some n => (n : Int)
    | none => 0

/-- Embedding of `str.rfind(c)`: index of the last occurrence, or -1. -/
def pyRfind (c : Char) : List Char → Int
  | [] => -1
  | x :: rest =>
    let r := pyRfind c rest
    if r ≥ 0 then r + 1 else if x = c then 0 else -1

/-- Embedding of `get_list_type`: for a list tag, everything before the last
`[` (`msg_type_name[:msg_type_name.rfind("[")]`; when no `[` occurs, `rfind`
gives -1 and the Python slice drops the last character). Other tags are
returned unchanged. -/
def get_list_type (msg_type_name : String) : String :=
  if is_msg_type_list msg_type_name then
    let index := pyRfind '[' msg_type_name.data
    if index ≥ 0 then ⟨msg_type_name.data.take index.toNat⟩
    else ⟨msg_type_name.data.dropLast⟩
  else msg_type_name

/-- The list-shape classification at the top of the builder's loop body
(generate_spec.py lines 121-126): for a list tag take its size and stripped
base type, otherwise the scalar size -1 and the unmodified tag. -/
def classifyFieldTag (data_type : String) : Int × String :=
  if is_msg_type_list data_type then (get_list_size data_type, get_list_type data_type)
  else (-1, data_type)

/-! ## The class-tree builder (generate_spec.py: java_class_spec_generator)

The Python function mutates `class_spec` and the module-level cache; here
both are threaded. `fuel` bounds the recursion depth (Python relies on the
schema graph being acyclic and would exhaust the interpreter stack
otherwise); `none` models an uncaught exception (unresolvable type,
malformed header, or exhausted recursion). The Python code adds the empty
sub-spec to the parent before populating it in place; populating first and
then adding yields the same final tree, as the recursion never reads the
parent. -/

mutual
/-- Embedding of `java_class_spec_generator`: process the slots in declared
order, then append every message constant. -/
def java_class_spec_generator (resolver : String → String → RosMessage) (fuel : Nat)
    (cache : MsgClassCache) (class_spec : JavaClassSpec) (msg_instance : RosMessage) :
    Option (JavaClassSpec × MsgClassCache) :=
  match generatorFields resolver fuel cache class_spec msg_instance.slotPairs with
  | none => none
  | some (spec', cache') =>
    some ((get_message_constants msg_instance).foldl
      (fun s nv => s.add_constant nv.1 nv.2) spec', cache')
termination_by (fuel, 2, 0)

/-- The `for name, data_type in zip(...)` loop of the builder. -/
def generatorFields (resolver : String → String → RosMessage) (fuel : Nat)
    (cache : MsgClassCache) (class_spec : JavaClassSpec) :
    List (String × String × PyValue) → Option (JavaClassSpec × MsgClassCache)
  | [] => some (class_spec, cache)
  | nv :: rest =>
    match processField resolver fuel cache class_spec nv with
    | none => none
    | some (spec', cache') => generatorFields resolver fuel cache' spec' rest
termination_by l => (fuel, 1, l.length)

/-- One loop-body iteration of the builder: classify the tag's list shape,
then dispatch on whether the stripped base name is a `RosPrimitive`: the two
temporal kinds synthesize their fixed composite, other primitives become a
`JavaMessageField`, everything else is resolved through the cache and built
recursively as a sub-spec carrying the field's size. -/
def processField (resolver : String → String → RosMessage) (fuel : Nat)
    (cache : MsgClassCache) (class_spec : JavaClassSpec) :
    String × String × PyValue → Option (JavaClassSpec × MsgClassCache)
  | (name, data_type0, value) =>
    let sd := classifyFieldTag data_type0
    let size : Int := sd.1
    let data_type := sd.2
    match rosPrimitiveOfString data_type with
    | none =>
      (match get_msg_class resolver cache data_type with
       | .error _ => none
       | .ok (msg_class, cache', _) =>
         match fuel with
         | 0 => none
         | fuel' + 1 =>
           match java_class_spec_generator resolver fuel' cache'
               (JavaClassSpec.new data_type size) msg_class with
           | none => none
           | some (sub_spec, cache'') => some (class_spec.add_sub_spec name sub_spec, cache''))
    | some .time => some (class_spec.add_sub_spec name javaTimeSpec, cache)
    | some .duration => some (class_spec.add_sub_spec name javaDurationSpec, cache)
    | some p => some (class_spec.add_field name value (rosToJavaPrimitive p) size, cache)
termination_by (fuel, 0, 0)
end

/-! ## The dedup registry (generate_spec.py: filter_unique_objects) -/

/-- The `unique_objects` dict. -/
abbrev UniqueObjects := List (String × JavaClassSpec)

/-- `sizeOf` of the `fields` projection is below the spec's own `sizeOf`
(used for the termination of the registry recursion). -/
theorem sizeOf_fields_lt (s : JavaClassSpec) : sizeOf s.fields < sizeOf s := by
  cases s with
  | mk c m sz f cs => simp [JavaClassSpec.fields]; omega

mutual
/-- Embedding of `filter_unique_objects`: a blacklisted type returns the
registry untouched; a stored type name must be `__eq__`-equal to the
incoming node (`none` models the failed assertion) and is never replaced; a
new name is inserted; then the loop recurses into every field whose runtime
type is exactly `JavaClassSpec`. -/
def filter_unique_objects (unique_objects : UniqueObjects) (class_spec : JavaClassSpec)
    (blacklist : List String) : Option UniqueObjects :=
  if class_spec.msg_type ∈ blacklist then
    some unique_objects
  else
    match dictLookup class_spec.msg_type unique_objects with
    | some stored =>
      if specEq stored class_spec then filterFields unique_objects class_spec.fields blacklist
      else none
    | none =>
      filterFields (dictInsert class_spec.msg_type class_spec unique_objects)
        class_spec.fields blacklist
termination_by sizeOf class_spec
decreasing_by
  all_goals exact sizeOf_fields_lt class_spec

/-- The `for field in class_spec.fields.values()` loop of
`filter_unique_objects`, with its exact-type check
`type(field) == JavaClassSpec`. -/
def filterFields (unique_objects : UniqueObjects) :
    List (String × JavaField) → List String → Option UniqueObjects
  | [], _ => some unique_objects
  | (_, f) :: rest, blacklist =>
    match f with
    | .sub s =>
      if s.cls = .base then
        match filter_unique_objects unique_objects s blacklist with
        | none => none
        | some uo' => filterFields uo' rest blacklist
      else filterFields unique_objects rest blacklist
    | .msgField .. => filterFields unique_objects rest blacklist
termination_by l _ => sizeOf l
decreasing_by
  all_goals simp_wf <;> omega
end

/-! ## Code emitter (code_artifacts.py) -/

/-- A single apostrophe character (U+0027), used in rendered Java/Python
literals. -/
def apostrophe : String := ⟨[Char.ofNat 39]⟩

/-- Separator predicate of the `(_|-)+` pattern in `camel_case`. -/
def isSnakeSep (c : Char) : Bool := c = '_' ∨ c = '-'

/-- Embedding of `re.sub(r"(_|-)+", " ", s)`: each maximal run of `_`/`-`
becomes one space (a separator directly after another separator is dropped,
a first separator becomes a space). -/
def collapseSnake (cs : List Char) : List Char :=
  (cs.foldl (fun (acc : List Char × Bool) c =>
    if isSnakeSep c then (if acc.2 then acc.1 else ' ' :: acc.1, true)
    else (c :: acc.1, false)) ([], false)).1.reverse

/-- Embedding of `str.title()`: an alphabetic character is uppercased when
the previous character was not alphabetic and lowercased otherwise
(restricted to the alphabetic notion of casedness, which covers the
identifier characters this generator sees). -/
def pyTitle (cs : List Char) : List Char :=
  (cs.foldl (fun (acc : List Char × Bool) c =>
    let cased := c.isAlpha
    let c' := if cased then (if acc.2 then c.toLower else c.toUpper) else c
    (c' :: acc.1, cased)) ([], false)).1.reverse

/-- Embedding of `camel_case`: collapse separator runs to spaces, titlecase,
delete the spaces, lowercase the first character. (On an empty result the
Python code would raise `IndexError`; real names are nonempty.) -/
def camel_case (snake_str : String) : String :=
  match (pyTitle (collapseSnake snake_str.data)).filter (fun c => c ≠ ' ') with
  | [] => ""
  | c :: rest => ⟨c.toLower :: rest⟩

/-- Embedding of `get_class_special_case_package`. -/
def get_class_special_case_package (package class_name : String) : String :=
  if package = "std_msgs" then "Ros" ++ class_name else class_name

/-- Embedding of `get_full_type`. `none` models the `ValueError` Python
raises when the dotted name does not split into exactly two parts. -/
def get_full_type (package_root : String) (field : JavaClassSpec) : Option String :=
  let field_java_type : String := ⟨pyReplaceChar '/' '.' field.msg_type.data⟩
  if field_java_type.data.contains '.' then
    match pySplitChar '.' field_java_type.data with
    | [package, class_name0] =>
      some (package_root ++ package ++ "." ++ get_class_special_case_package package class_name0)
    | _ => none
  else
    some (package_root ++ field_java_type)

/-- Embedding of `INDENT = " " * 4`. -/
def INDENT : String := "    "

/-- Embedding of `getter_template`. -/
def getter_template (full_type name : String) : String :=
  INDENT ++ "public " ++ full_type ++ " " ++ camel_case ("get_" ++ name) ++
    "() \x7b\n        return this." ++ name ++ ";\n    \x7d\n"

/-- Embedding of `setter_template`. -/
def setter_template (full_type name : String) : String :=
  INDENT ++ "public void " ++ camel_case ("set_" ++ name) ++ "(" ++ full_type ++ " " ++ name ++
    ") \x7b\n        this." ++ name ++ " = " ++ name ++ ";\n    \x7d\n"

/-- Embedding of `PRIMITIVE_DEFAULTS` (the `char` default is a quoted NUL). -/
def primitiveDefault : JavaPrimitive → String
  | .boolean => "false"
  | .byte => "0"
  | .char => apostrophe ++ (⟨[Char.ofNat 0]⟩ : String) ++ apostrophe
  | .short => "0"
  | .int => "0"
  | .long => "0"
  | .float => "0.0f"
  | .double => "0.0"
  | .javaString => "\"\""

/-- Embedding of `PRIMITIVE_TO_JAVA_OBJECT`. -/
def primitiveToJavaObject : JavaPrimitive → String
  | .boolean => "java.lang.Boolean"
  | .byte => "java.lang.Byte"
  | .char => "java.lang.Character"
  | .short => "java.lang.Short"
  | .int => "java.lang.Integer"
  | .long => "java.lang.Long"
  | .float => "java.lang.Float"
  | .double => "java.lang.Double"
  | .javaString => "java.lang.String"

/-- Embedding of `JAVA_OBJECT_TO_PRIMITIVE` (the inverted dict; note both
`String` and its boxed spelling map to `java.lang.String`, and the
inversion keeps the last writer, which is the same member). -/
def javaObjectToPrimitive : String → Option JavaPrimitive
  | "java.lang.Boolean" => some .boolean
  | "java.lang.Byte" => some .byte
  | "java.lang.Character" => some .char
  | "java.lang.Short" => some .short
  | "java.lang.Integer" => some .int
  | "java.lang.Long" => some .long
  | "java.lang.Float" => some .float
  | "java.lang.Double" => some .double
  | "java.lang.String" => some .javaString
  | _ => none

/-- Embedding of `PRIMITIVE_JSON_FUNCTIONS` together with the `.format(obj=e)`
substitution applied to the chosen snippet. -/
def primitiveJsonFunction (p : JavaPrimitive) (obj : String) : String :=
  match p with
  | .boolean => obj ++ ".getAsBoolean()"
  | .byte => obj ++ ".getAsByte()"
  | .char => "(char)" ++ obj ++ ".getAsByte()"
  | .short => obj ++ ".getAsShort()"
  | .int => obj ++ ".getAsInt()"
  | .long => obj ++ ".getAsLong()"
  | .float => obj ++ ".getAsFloat()"
  | .double => obj ++ ".getAsDouble()"
  | .javaString => obj ++ ".getAsString()"

/-- Embedding of the `JavaMessageField` dataclass as the field generators
receive it. -/
structure JavaMessageField where
  value : PyValue
  msg_type : JavaPrimitive
  size : Int

/-- Embedding of `GeneratedCodeArtifacts`. -/
structure GeneratedCodeArtifacts where
  fields_code : String
  arg : String
  arg_assignment : String
  getter : String
  setter : String
  json_constructor : String

/-- Embedding of `set.add` on the imports set, kept as an insertion-ordered
duplicate-free list (the set's unspecified enumeration order is a
permutation, modelled by the `σ` parameter of the emitter). -/
def setAdd (s : List String) (x : String) : List String :=
  if s.contains x then s else s ++ [x]

/-- Embedding of `generate_code_from_field` (scalar primitive field; adds no
imports). -/
def generate_code_from_field (imports : List String) (_package_root name : String)
    (field : JavaMessageField) : List String × GeneratedCodeArtifacts :=
  let field_java_type := field.msg_type.value
  (imports,
   { fields_code := INDENT ++ "private " ++ field_java_type ++ " " ++ name ++ " = " ++
       primitiveDefault field.msg_type ++ ";\n"
     arg := field_java_type ++ " " ++ name
     arg_assignment := INDENT ++ INDENT ++ "this." ++ name ++ " = " ++ name ++ ";\n"
     getter := getter_template field_java_type name
     setter := setter_template field_java_type name
     json_constructor := INDENT ++ INDENT ++ "this." ++ name ++ " = " ++
       primitiveJsonFunction field.msg_type ("jsonObj.get(\"" ++ name ++ "\")") ++ ";\n" })

/-- Embedding of `generate_code_from_arraylist_type`. -/
def generate_code_from_arraylist_type (imports : List String) (name full_type : String) :
    List String × GeneratedCodeArtifacts :=
  let imports := setAdd imports "import java.util.ArrayList;"
  let imports := setAdd imports "import java.util.Arrays;"
  let imports := setAdd imports "import com.google.gson.JsonElement;"
  let array_type := "ArrayList<" ++ full_type ++ ">"
  let new_from_json_code : String → String :=
    match javaObjectToPrimitive full_type with
    | some prim => primitiveJsonFunction prim
    | none => fun obj => "new " ++ full_type ++ "(" ++ obj ++ ".getAsJsonObject())"
  (imports,
   { fields_code := INDENT ++ "private " ++ array_type ++ " " ++ name ++ " = new ArrayList<>();\n"
     arg := full_type ++ "[] " ++ name
     arg_assignment := INDENT ++ INDENT ++ "this." ++ name ++ " = new ArrayList<>(Arrays.asList(" ++
       name ++ "));\n"
     getter := getter_template array_type name
     setter := setter_template array_type name
     json_constructor := INDENT ++ INDENT ++ "for (JsonElement " ++ name ++
       "_element : jsonObj.getAsJsonArray(\"" ++ name ++ "\")) \x7b\n" ++
       INDENT ++ INDENT ++ INDENT ++ "this." ++ name ++ ".add(" ++
       new_from_json_code (name ++ "_element") ++ ");\n" ++ INDENT ++ INDENT ++ "\x7d\n" })

/-- Embedding of `generate_code_from_static_array_type`. -/
def generate_code_from_static_array_type (imports : List String) (name full_type : String)
    (size : Int) : List String × GeneratedCodeArtifacts :=
  let imports := setAdd imports "import com.google.gson.JsonElement;"
  let (new_value_code, new_from_json_code) :
      String × (String → String) :=
    match javaObjectToPrimitive full_type with
    | some prim => (primitiveDefault prim, primitiveJsonFunction prim)
    | none => ("new " ++ full_type ++ "()",
               fun obj => "new " ++ full_type ++ "(" ++ obj ++ ".getAsJsonObject())")
  let static_array_values :=
    (List.range size.toNat).foldl (fun acc _ => acc ++ "\n" ++ INDENT ++ INDENT ++ new_value_code ++ ",") ""
  let static_array_values := (⟨static_array_values.data.dropLast⟩ : String) ++ "\n    "
  let array_type := full_type ++ "[]"
  (imports,
   { fields_code := INDENT ++ "private " ++ array_type ++ " " ++ name ++ " = new " ++ array_type ++
       " \x7b" ++ static_array_values ++ "\x7d;\n"
     arg := array_type ++ " " ++ name
     arg_assignment := INDENT ++ INDENT ++ "for (int index = 0; index < " ++ toString size ++
       "; index++) \x7b\n" ++ INDENT ++ INDENT ++ INDENT ++ "this." ++ name ++ "[index] = " ++
       name ++ "[index];\n" ++ INDENT ++ INDENT ++ "\x7d\n"
     getter := getter_template array_type name
     setter := setter_template array_type name
     json_constructor := "        int " ++ name ++ "_element_index = 0;\n        for (JsonElement " ++
       name ++ "_element : jsonObj.getAsJsonArray(\"" ++ name ++ "\")) \x7b\n            this." ++
       name ++ "[" ++ name ++ "_element_index++] = " ++ new_from_json_code (name ++ "_element") ++
       ";\n        \x7d\n" })

/-- Embedding of `generate_code_from_field_variable_list`. -/
def generate_code_from_field_variable_list (imports : List String) (_package_root name : String)
    (field : JavaMessageField) : List String × GeneratedCodeArtifacts :=
  generate_code_from_arraylist_type imports name (primitiveToJavaObject field.msg_type)

/-- Embedding of `generate_code_from_field_static_list`. -/
def generate_code_from_field_static_list (imports : List String) (_package_root name : String)
    (field : JavaMessageField) : List String × GeneratedCodeArtifacts :=
  generate_code_from_static_array_type imports name (primitiveToJavaObject field.msg_type) field.size

/-- Embedding of `generate_code_from_spec_sub_msg`. -/
def generate_code_from_spec_sub_msg (imports : List String) (package_root name : String)
    (field : JavaClassSpec) : Option (List String × GeneratedCodeArtifacts) :=
  match get_full_type package_root field with
  | none => none
  | some full_type =>
    some (imports,
      { fields_code := INDENT ++ "private " ++ full_type ++ " " ++ name ++ " = new " ++ full_type ++ "();\n"
        arg := full_type ++ " " ++ name
        arg_assignment := INDENT ++ INDENT ++ "this." ++ name ++ " = " ++ name ++ ";\n"
        getter := getter_template full_type name
        setter := setter_template full_type name
        json_constructor := INDENT ++ INDENT ++ "this." ++ name ++ " = new " ++ full_type ++
          "(jsonObj.get(\"" ++ name ++ "\").getAsJsonObject());\n" })

/-- Embedding of `generate_code_from_spec_variable_list`. -/
def generate_code_from_spec_variable_list (imports : List String) (package_root name : String)
    (field : JavaClassSpec) : Option (List String × GeneratedCodeArtifacts) :=
  match get_full_type package_root field with
  | none => none
  | some full_type => some (generate_code_from_arraylist_type imports name full_type)

/-- Embedding of `generate_code_from_spec_static_list`. -/
def generate_code_from_spec_static_list (imports : List String) (package_root name : String)
    (field : JavaClassSpec) : Option (List String × GeneratedCodeArtifacts) :=
  match get_full_type package_root field with
  | none => none
  | some full_type => some (generate_code_from_static_array_type imports name full_type field.size)

/-- Embedding of `posixpath.normpath` (the platform `os.path.normpath`):
collapse empty and `.` components, resolve `..` against preceding
components, preserve the POSIX one-or-two leading slashes. -/
def posixNormpath (path : String) : String :=
  if path = "" then "."
  else
    let initialSlashes : Nat :=
      if leadsWith ['/'] path.data then
        if leadsWith ['/', '/'] path.data ∧ ¬ leadsWith ['/', '/', '/'] path.data then 2 else 1
      else 0
    let newComps := (pySplitChar '/' path.data).foldl (fun (acc : List String) comp =>
      if comp = "" ∨ comp = "." then acc
      else if comp ≠ ".." ∨ (initialSlashes = 0 ∧ acc = []) ∨ acc.getLast? = some ".." then
        acc ++ [comp]
      else if acc ≠ [] then acc.dropLast
      else acc) []
    let joined := String.intercalate "/" newComps
    let path' := (⟨List.replicate initialSlashes '/'⟩ : String) ++ joined
    if path' = "" then "." else path'

/-- Embedding of `get_package_root`: normalize, split on the separator, join
with dots, append a trailing dot when nonempty. -/
def get_package_root (path : String) : String :=
  let path := posixNormpath path
  let package_root := String.intercalate "." (pySplitChar '/' path.data)
  if package_root.length > 0 then package_root ++ "." else package_root

/-- The `field.msg_type in blacklist` test of the emitter's field loop: on a
`JavaMessageField` the attribute is a `JavaPrimitive` enum member and never
equals a string, so only nested spec fields can be blacklisted. -/
def fieldInBlacklist (field : JavaField) (blacklist : List String) : Bool :=
  match field with
  | .msgField .. => false
  | .sub s => blacklist.contains s.msg_type

/-- The per-field package-root selection of `generate_java_code_from_spec`
(lines 436-439): a blacklisted field type is addressed through the external
package, everything else through the locally computed project root. -/
def choosePackageRoot (project_package_root external_package : String)
    (blacklist : List String) (field : JavaField) : String :=
  if fieldInBlacklist field blacklist then external_package else project_package_root

/-- The six-way dispatch of the emitter's field loop on the field's runtime
type and size (`-1` scalar, `0` variable list, otherwise static list).
`none` models the `ValueError` paths. -/
def generateFieldCode (imports : List String) (package_root name : String) (field : JavaField) :
    Option (List String × GeneratedCodeArtifacts) :=
  match field with
  | .msgField v ty sz =>
    if sz = -1 then some (generate_code_from_field imports package_root name ⟨v, ty, sz⟩)
    else if sz = 0 then some (generate_code_from_field_variable_list imports package_root name ⟨v, ty, sz⟩)
    else some (generate_code_from_field_static_list imports package_root name ⟨v, ty, sz⟩)
  | .sub s =>
    if s.size = -1 then generate_code_from_spec_sub_msg imports package_root name s
    else if s.size = 0 then generate_code_from_spec_variable_list imports package_root name s
    else generate_code_from_spec_static_list imports package_root name s

/-- The running accumulators of the emitter's field loop. -/
structure LoopAcc where
  imports : List String
  fields_code : String
  arg_strings : List String
  arg_assignment : String
  getters : String
  setters : String
  json_constructor : String

/-- The field loop of `generate_java_code_from_spec`: per field choose the
package root, dispatch, and append every artifact. -/
def emitFields (project_package_root external_package : String) (blacklist : List String) :
    LoopAcc → List (String × JavaField) → Option LoopAcc
  | acc, [] => some acc
  | acc, (name, field) :: rest =>
    let package_root := choosePackageRoot project_package_root external_package blacklist field
    match generateFieldCode acc.imports package_root name field with
    | none => none
    | some (imports', r) =>
      emitFields project_package_root external_package blacklist
        { imports := imports'
          fields_code := acc.fields_code ++ r.fields_code
          arg_strings := acc.arg_strings ++ [r.arg]
          arg_assignment := acc.arg_assignment ++ r.arg_assignment
          getters := acc.getters ++ r.getter
          setters := acc.setters ++ r.setter
          json_constructor := acc.json_constructor ++ r.json_constructor } rest

/-- Python `str(value)` as the constants loop renders it (no quoting for
strings; bytes render with their `b` prefix and quotes). -/
def pyStrOf : PyValue → String
  | .pyBool b => if b then "True" else "False"
  | .pyInt n => toString n
  | .pyFloat lit => lit
  | .pyStr s => s
  | .pyBytes s => "b" ++ apostrophe ++ s ++ apostrophe

/-- Embedding of `PYTHON_TO_JAVA_PRIMITIVE_MAPPING` applied to `type(value)`. -/
def pythonToJavaPrimitive : PyValue → JavaPrimitive
  | .pyBool _ => .boolean
  | .pyInt _ => .int
  | .pyFloat _ => .double
  | .pyStr _ => .javaString
  | .pyBytes _ => .javaString

/-- Python `s[:-1]`. -/
def dropLastChar (s : String) : String := ⟨s.data.dropLast⟩

/-- The args-constructor block (lines 496-504): present exactly when the
loop produced at least one constructor argument. -/
def argsConstructorBlock (class_name args arg_assignment : String) (numArgs : Nat) : String :=
  if numArgs > 0 then
    "\n" ++ INDENT ++ "public " ++ class_name ++ "(" ++ args ++ ") \x7b\n" ++ arg_assignment ++
      "\n" ++ INDENT ++ "\x7d\n"
  else ""

/-- The literal text of the emitted file before the `{args_constructor}`
interpolation point. -/
def codeBeforeArgsCtor (project_package_root package_name import_code class_name
    external_package constants_code fields_code msg_type : String) : String :=
  "// Auto generated!! Do not modify.\npackage " ++ project_package_root ++ package_name ++
    ";\n\n" ++ import_code ++ "\n\npublic class " ++ class_name ++ " extends " ++
    external_package ++ "RosMessage \x7b\n" ++ constants_code ++ "\n" ++ fields_code ++
    "\n    @Expose(serialize = false, deserialize = false)\n    public final java.lang.String _type = \"" ++
    msg_type ++ "\";\n\n    public " ++ class_name ++ "() \x7b\n\n    \x7d\n"

/-- The literal text of the emitted file after the `{args_constructor}`
interpolation point. -/
def codeAfterArgsCtor (class_name json_constructor getters setters : String) : String :=
  "\n    public " ++ class_name ++ "(JsonObject jsonObj) \x7b\n" ++ json_constructor ++
    "\n    \x7d\n\n" ++ getters ++ "\n" ++ setters ++
    "\n    public JsonObject toJSON() \x7b\n        return ginst.toJsonTree(this).getAsJsonObject();\n    \x7d\n\n    public java.lang.String toString() \x7b\n        return ginst.toJson(this);\n    \x7d\n\x7d\n"

/-- The intermediate results of `generate_java_code_from_spec` up to (and
including) the two unconditional import additions; everything after this
point only sorts the import set and splices strings. `none` models the
`ValueError` on a `msg_type` without exactly one `/` and the errors of the
field loop. -/
structure EmitterPieces where
  package_name : String
  class_name : String
  project_package_root : String
  imports : List String
  fields_code : String
  arg_strings : List String
  arg_assignment : String
  getters : String
  setters : String
  json_constructor : String
  constants_code : String

/-- The computation of `generate_java_code_from_spec` before the import sort. -/
def generatePieces (path : String) (spec : JavaClassSpec) (external_package : String)
    (blacklist : List String) : Option EmitterPieces :=
  match pySplitChar '/' spec.msg_type.data with
  | [package_name, class_name0] =>
    let project_package_root := get_package_root path
    let class_name := get_class_special_case_package package_name class_name0
    match emitFields project_package_root external_package blacklist
        ⟨[], "", [], "", "", "", ""⟩ spec.fields with
    | none => none
    | some acc =>
      let constants_code := spec.constants.foldl (fun code nv =>
        code ++ INDENT ++ "public static " ++ (pythonToJavaPrimitive nv.2).value ++ " " ++
          nv.1 ++ " = " ++ pyStrOf nv.2 ++ ";\n") ""
      some
        { package_name := package_name
          class_name := class_name
          project_package_root := project_package_root
          imports := setAdd (setAdd acc.imports "import com.google.gson.JsonObject;")
            "import com.google.gson.annotations.Expose;"
          fields_code := acc.fields_code
          arg_strings := acc.arg_strings
          arg_assignment := acc.arg_assignment
          getters := acc.getters
          setters := acc.setters
          json_constructor := acc.json_constructor
          constants_code := constants_code }
  | _ => none

/-- The final splice of `generate_java_code_from_spec`, given the
rendered import block. -/
def renderFromPieces (import_code external_package msg_type : String) (p : EmitterPieces) :
    String × String :=
  let args := String.intercalate ", " p.arg_strings
  let arg_assignment := dropLastChar p.arg_assignment
  let json_constructor := dropLastChar p.json_constructor
  let args_constructor := argsConstructorBlock p.class_name args arg_assignment p.arg_strings.length
  let code := codeBeforeArgsCtor p.project_package_root p.package_name import_code p.class_name
      external_package p.constants_code p.fields_code msg_type ++
    args_constructor ++
    codeAfterArgsCtor p.class_name json_constructor p.getters p.setters
  (p.package_name ++ "/" ++ p.class_name ++ ".java", code)

/-- Embedding of `generate_java_code_from_spec`. `σ` models `list(imports)`,
the unspecified enumeration order of the Python set (a permutation of its
elements); `sorted` then orders it. The result is the `(path, code)` pair. -/
def generate_java_code_from_spec (σ : List String → List String) (path : String)
    (spec : JavaClassSpec) (external_package : String) (blacklist : List String) :
    Option (String × String) :=
  match generatePieces path spec external_package blacklist with
  | none => none
  | some p =>
    let import_code := String.intercalate "\n"
      (List.insertionSort (fun a b : String => a ≤ b) (σ p.imports))
    some (renderFromPieces import_code external_package spec.msg_type p)

/-! ## Dictionary lemmas -/

/-- Looking a key up after an insert: the inserted key maps to the new
value, other keys are untouched. -/
theorem dictLookup_dictInsert {α : Type} (k k' : String) (v : α) (l : List (String × α)) :
    dictLookup k (dictInsert k' v l) = if k' = k then some v else dictLookup k l := by
  induction l with
  | nil => simp [dictInsert, dictLookup]
  | cons q rest ih =>
    obtain ⟨k'', v''⟩ := q
    by_cases h1 : k'' = k'
    · subst h1
      by_cases h2 : k'' = k <;> simp [dictInsert, dictLookup, h2]
    · by_cases h2 : k'' = k
      · subst h2
        have : ¬ k' = k'' := fun h => h1 h.symm
        simp [dictInsert, dictLookup, h1, this]
      · simp [dictInsert, dictLookup, h1, h2, ih]

/-- Members of an insert come from the inserted pair or the original dict. -/
theorem mem_dictInsert {α : Type} {p : String × α} (k : String) (v : α)
    (l : List (String × α)) (h : p ∈ dictInsert k v l) : p = (k, v) ∨ p ∈ l := by
  induction l with
  | nil => simpa [dictInsert] using h
  | cons q rest ih =>
    obtain ⟨k'', v''⟩ := q
    by_cases he : k'' = k
    · simp only [dictInsert, if_pos he] at h
      rcases List.mem_cons.mp h with h | h
      · exact Or.inl h
      · exact Or.inr (List.mem_cons_of_mem _ h)
    · simp only [dictInsert, if_neg he] at h
      rcases List.mem_cons.mp h with h | h
      · exact Or.inr (h ▸ List.mem_cons_self _ _)
      · rcases ih h with h | h
        · exact Or.inl h
        · exact Or.inr (List.mem_cons_of_mem _ h)

/-- Duplicate-freeness of a dict's keys (reachable dicts always satisfy it). -/
def keysNodup {α : Type} : List (String × α) → Bool
  | [] => true
  | (k, _) :: rest => rest.all (fun q => q.1 != k) && keysNodup rest

/-- `keysNodup` as a `Pairwise` statement. -/
theorem keysNodup_iff_pairwise {α : Type} (l : List (String × α)) :
    keysNodup l = true ↔ l.Pairwise (fun p q => p.1 ≠ q.1) := by
  induction l with
  | nil => simp [keysNodup]
  | cons p rest ih =>
    obtain ⟨k, v⟩ := p
    simp only [keysNodup, Bool.and_eq_true, List.all_eq_true, bne_iff_ne,
      List.pairwise_cons, ih]
    constructor <;> rintro ⟨h1, h2⟩
    · exact ⟨fun q hq => (h1 q hq).symm, h2⟩
    · exact ⟨fun q hq => (h1 q hq).symm, h2⟩

/-- Key duplicate-freeness transfers along permutations. -/
theorem keysNodup_of_perm {α : Type} {l₁ l₂ : List (String × α)} (h : l₁.Perm l₂)
    (hn : keysNodup l₁ = true) : keysNodup l₂ = true := by
  rw [keysNodup_iff_pairwise] at *
  exact (h.pairwise_iff (fun hab => hab.symm)).mp hn

/-- On a duplicate-free dict, lookup finds exactly the member pair. -/
theorem dictLookup_of_mem {α : Type} {l : List (String × α)} {k : String} {v : α}
    (hnd : keysNodup l = true) (hm : (k, v) ∈ l) : dictLookup k l = some v := by
  induction l with
  | nil => cases hm
  | cons p rest ih =>
    obtain ⟨k', v'⟩ := p
    simp only [keysNodup, Bool.and_eq_true, List.all_eq_true, bne_iff_ne] at hnd
    rcases List.mem_cons.mp hm with h | h
    · injection h with h1 h2
      subst h1
      subst h2
      simp [dictLookup]
    · have hk : ¬ k' = k := fun he => (hnd.1 (k, v) h) (by simpa using he.symm)
      simp [dictLookup, hk, ih hnd.2 h]

/-! ## Well-formedness of reachable specs

Every spec the code builds has duplicate-free field names at every level
(its `fields` are Python dicts); several `__eq__` facts need this. -/

mutual
/-- Duplicate-free field keys, recursively. -/
def specWF : JavaClassSpec → Bool
  | .mk _ _ _ fields _ => keysNodup fields && fieldsWF fields
termination_by a => sizeOf a

/-- `specWF` over a field list. -/
def fieldsWF : List (String × JavaField) → Bool
  | [] => true
  | (_, f) :: rest => fieldWF f && fieldsWF rest
termination_by l => sizeOf l

/-- `specWF` of a single field value. -/
def fieldWF : JavaField → Bool
  | .msgField .. => true
  | .sub s => specWF s
termination_by f => sizeOf f
end

/-- Member fields of a well-formed field list are well-formed. -/
theorem fieldsWF_mem {l : List (String × JavaField)} {p : String × JavaField}
    (hwf : fieldsWF l = true) (hp : p ∈ l) : fieldWF p.2 = true := by
  induction l with
  | nil => cases hp
  | cons q rest ih =>
    obtain ⟨k, f⟩ := q
    rw [fieldsWF] at hwf
    rcases List.mem_cons.mp hp with h | h
    · subst h
      exact (Bool.and_eq_true .. ▸ hwf).1
    · exact ih (Bool.and_eq_true .. ▸ hwf).2 h

/-- `pyValueEq` is reflexive. -/
theorem pyValueEq_refl (v : PyValue) : pyValueEq v v = true := by
  cases v <;> simp [pyValueEq]

/-- `keySetEq` is reflexive. -/
theorem keySetEq_refl (a : List String) : keySetEq a a = true := by
  simp only [keySetEq, Bool.and_eq_true, List.all_eq_true]
  exact ⟨fun x hx => List.elem_eq_true_of_mem hx, fun x hx => List.elem_eq_true_of_mem hx⟩

/-- Two lists with the same members are `keySetEq`. -/
theorem keySetEq_of_mem_iff {a b : List String} (h : ∀ x, x ∈ a ↔ x ∈ b) :
    keySetEq a b = true := by
  simp only [keySetEq, Bool.and_eq_true, List.all_eq_true]
  exact ⟨fun x hx => List.elem_eq_true_of_mem ((h x).mp hx),
         fun x hx => List.elem_eq_true_of_mem ((h x).mpr hx)⟩

/-- Sufficient pointwise condition for the `__eq__` field loop to pass. -/
theorem fieldsMatch_of_forall {l m : List (String × JavaField)}
    (h : ∀ p ∈ l, ∃ g, dictLookup p.1 m = some g ∧ fieldPairOk p.2 g = true) :
    fieldsMatch l m = true := by
  induction l with
  | nil => rw [fieldsMatch]
  | cons p rest ih =>
    obtain ⟨name, f⟩ := p
    obtain ⟨g, hg, hok⟩ := h (name, f) (List.mem_cons_self _ _)
    rw [fieldsMatch]
    simp only [hg, hok, Bool.and_eq_true]
    exact ⟨trivial, ih (fun q hq => h q (List.mem_cons_of_mem _ hq))⟩

/-- Reflexivity of `__eq__` on well-formed plain specs, with an explicit
size bound for the induction. -/
theorem specEq_self_fuel :
    ∀ (n : Nat) (a : JavaClassSpec), sizeOf a ≤ n → specWF a = true → a.cls = .base →
      specEq a a = true := by
  intro n
  induction n with
  | zero =>
    intro a ha _ _
    cases a
    simp at ha
  | succ m ih =>
    intro a ha hwf hcls
    cases a with
    | mk c mt sz fields cs =>
      have hc : c = .base := by simpa [JavaClassSpec.cls] using hcls
      subst hc
      rw [specWF] at hwf
      have hnd := (Bool.and_eq_true .. ▸ hwf).1
      have hfw := (Bool.and_eq_true .. ▸ hwf).2
      rw [specEq]
      rw [if_pos rfl, Bool.and_eq_true]
      refine ⟨keySetEq_refl _, fieldsMatch_of_forall ?_⟩
      intro p hp
      obtain ⟨pn, pf⟩ := p
      refine ⟨pf, dictLookup_of_mem hnd hp, ?_⟩
      have hfw2 : fieldWF pf = true := by
        have := fieldsWF_mem hfw hp
        simpa using this
      cases pf with
      | msgField v ty szf =>
        rw [fieldPairOk]
        simp [pyValueEq_refl]
      | sub s =>
        rw [fieldPairOk]
        by_cases hb : s.cls = .base
        · have hswf : specWF s = true := by rw [fieldWF] at hfw2; exact hfw2
          have hss : sizeOf s ≤ m := by
            have h1 := List.sizeOf_lt_of_mem hp
            simp only [JavaClassSpec.mk.sizeOf_spec] at ha
            simp only [Prod.mk.sizeOf_spec, JavaField.sub.sizeOf_spec] at h1
            omega
          simp [hb, ih s hss hswf hb]
        · simp [hb]

/-- Reflexivity of `__eq__` on well-formed plain specs. -/
theorem specEq_self (a : JavaClassSpec) (hwf : specWF a = true) (hcls : a.cls = .base) :
    specEq a a = true :=
  specEq_self_fuel (sizeOf a) a (Nat.le_refl _) hwf hcls

/-- One `__eq__` loop-body check passes when both sides are the same
well-formed field. -/
theorem fieldPairOk_refl (f : JavaField) (h : fieldWF f = true) : fieldPairOk f f = true := by
  cases f with
  | msgField v ty sz =>
    rw [fieldPairOk]
    simp [pyValueEq_refl]
  | sub s =>
    rw [fieldPairOk]
    by_cases hb : s.cls = .base
    · have hs : specWF s = true := by rw [fieldWF] at h; exact h
      simp [hb, specEq_self s hs hb]
    · simp [hb]

/-- C8: field declaration order is irrelevant to structural equality: two
plain class specs whose field dicts hold the same name-to-entry pairs in
any insertion orders are `__eq__`-equal (order only affects the emitted
declaration/accessor order, not equality). -/
theorem specEq_insensitive_to_field_order (a b : JavaClassSpec)
    (hperm : a.fields.Perm b.fields) (hb : b.cls = .base) (hwf : specWF a = true) :
    specEq a b = true := by
  cases a with
  | mk ca mta sza fa csa =>
    cases b with
    | mk cb mtb szb fb csb =>
      have hcb : cb = .base := by simpa [JavaClassSpec.cls] using hb
      subst hcb
      have hp : fa.Perm fb := by simpa [JavaClassSpec.fields] using hperm
      rw [specWF] at hwf
      have hnd := (Bool.and_eq_true .. ▸ hwf).1
      have hfw := (Bool.and_eq_true .. ▸ hwf).2
      have hndb : keysNodup fb = true := keysNodup_of_perm hp hnd
      rw [specEq, if_pos rfl, Bool.and_eq_true]
      constructor
      · apply keySetEq_of_mem_iff
        intro x
        simpa [keysOf] using (hp.map Prod.fst).mem_iff
      · apply fieldsMatch_of_forall
        intro p hp2
        obtain ⟨pn, pf⟩ := p
        have hmemb : (pn, pf) ∈ fb := hp.subset hp2
        refine ⟨pf, dictLookup_of_mem hndb hmemb, ?_⟩
        exact fieldPairOk_refl pf (by simpa using fieldsWF_mem hfw hp2)

/-! ## What `__eq__` observes (for C7) -/

mutual
/-- Erase everything `__eq__` does not observe: the spec's own `msg_type`
and `size`, the `constants` dict, and every `JavaMessageField.size`. The
runtime class tags, field names, primitive values and kinds are kept. -/
def scrubSpec : JavaClassSpec → JavaClassSpec
  | .mk c _ _ fields _ => .mk c "" 0 (scrubFields fields) []
termination_by a => sizeOf a

/-- `scrubSpec` over a field list. -/
def scrubFields : List (String × JavaField) → List (String × JavaField)
  | [] => []
  | (k, f) :: rest => (k, scrubField f) :: scrubFields rest
termination_by l => sizeOf l

/-- `scrubSpec` of a single field value. -/
def scrubField : JavaField → JavaField
  | .msgField v ty _ => .msgField v ty 0
  | .sub s => .sub (scrubSpec s)
termination_by f => sizeOf f
end

/-- Scrubbing keeps the runtime class. -/
theorem cls_scrubSpec (s : JavaClassSpec) : (scrubSpec s).cls = s.cls := by
  cases s
  rw [scrubSpec]
  rfl

/-- Scrubbing keeps the runtime type of a field value. -/
theorem pyTypeOf_scrubField (f : JavaField) : pyTypeOf (scrubField f) = pyTypeOf f := by
  cases f with
  | msgField v ty sz =>
    rw [scrubField]
    rfl
  | sub s =>
    rw [scrubField]
    simp [pyTypeOf, cls_scrubSpec]

/-- Scrubbing keeps the field names. -/
theorem keysOf_scrubFields (l : List (String × JavaField)) :
    keysOf (scrubFields l) = keysOf l := by
  induction l with
  | nil => rw [scrubFields]
  | cons p rest ih =>
    obtain ⟨k, f⟩ := p
    rw [scrubFields]
    simp only [keysOf, List.map_cons] at *
    rw [ih]

/-- Lookup commutes with scrubbing. -/
theorem dictLookup_scrubFields (k : String) (l : List (String × JavaField)) :
    dictLookup k (scrubFields l) = (dictLookup k l).map scrubField := by
  induction l with
  | nil =>
    rw [scrubFields]
    simp [dictLookup]
  | cons p rest ih =>
    obtain ⟨k', f⟩ := p
    rw [scrubFields]
    by_cases h : k' = k
    · simp [dictLookup, h]
    · simp [dictLookup, h, ih]

/-- `__eq__` observes exactly what scrubbing keeps: comparing two scrubbed
specs gives the same verdict as comparing the originals. -/
theorem specEq_scrub : ∀ (a b : JavaClassSpec), specEq (scrubSpec a) (scrubSpec b) = specEq a b := by
  refine specEq.induct
    (fun a b => specEq (scrubSpec a) (scrubSpec b) = specEq a b)
    (fun l m => fieldsMatch (scrubFields l) (scrubFields m) = fieldsMatch l m)
    (fun f g => fieldPairOk (scrubField f) (scrubField g) = fieldPairOk f g)
    ?_ ?_ ?_ ?_ ?_ ?_ ?_ ?_ ?_
  · intro cls mt sz afields cs mt1 sz1 bfields cs1 h2
    rw [scrubSpec, scrubSpec, specEq, specEq, if_pos rfl, if_pos rfl,
      keysOf_scrubFields, keysOf_scrubFields, h2]
  · intro cls mt sz afields cs bcls mt1 sz1 bfields cs1 hne
    rw [scrubSpec, scrubSpec, specEq, specEq, if_neg hne, if_neg hne]
  · intro x
    rw [scrubFields, fieldsMatch, fieldsMatch]
  · intro name f rest bfields h3 h2
    rw [scrubFields, fieldsMatch, fieldsMatch, dictLookup_scrubFields]
    cases hg : dictLookup name bfields with
    | none => simp
    | some g => simp [h3 g, h2]
  · intro v ty sz w ty' sz1 _
    rw [scrubField, scrubField, fieldPairOk, fieldPairOk]
    simp [pyTypeOf]
  · intro s t hbase _ h1
    rw [scrubField, scrubField, fieldPairOk, fieldPairOk]
    simp [pyTypeOf, cls_scrubSpec, hbase, h1]
  · intro s t hbase _
    rw [scrubField, scrubField, fieldPairOk, fieldPairOk]
    simp [pyTypeOf, cls_scrubSpec, hbase]
  · intro f g hty hnm hns
    cases f with
    | msgField v ty sz =>
      cases g with
      | msgField w ty' sz1 => exact (hnm v ty sz w ty' sz1 rfl rfl).elim
      | sub t =>
        cases t with
        | mk c mtt szt ft ct => cases c <;> simp [pyTypeOf, JavaClassSpec.cls] at hty
    | sub s =>
      cases g with
      | msgField w ty' sz1 =>
        cases s with
        | mk c mts szs fs css => cases c <;> simp [pyTypeOf, JavaClassSpec.cls] at hty
      | sub t => exact (hns s t rfl rfl).elim
  · intro f g hty
    have h2 : ¬ pyTypeOf (scrubField f) = pyTypeOf (scrubField g) := by
      rw [pyTypeOf_scrubField, pyTypeOf_scrubField]
      exact hty
    cases f with
    | msgField v ty sz =>
      cases g with
      | msgField w ty' sz1 => exact absurd rfl hty
      | sub t =>
        rw [scrubField, scrubField] at h2 ⊢
        simp only [fieldPairOk, if_neg h2, if_neg hty]
    | sub s =>
      cases g with
      | msgField w ty' sz1 =>
        rw [scrubField, scrubField] at h2 ⊢
        simp only [fieldPairOk, if_neg h2, if_neg hty]
      | sub t =>
        rw [scrubField, scrubField] at h2 ⊢
        rw [fieldPairOk, fieldPairOk, if_neg h2, if_neg hty]

/-- C7: structural equality ignores everything except the field-name set
and, per field, the runtime type plus (for primitives) the value and kind:
two plain well-formed specs agreeing on that data are `__eq__`-equal even
when they differ in their own `msg_type`, their own `size`, their constants
or any field's list size. -/
theorem specEq_ignores_unobserved_data (a b : JavaClassSpec)
    (h : scrubSpec a = scrubSpec b) (hwf : specWF a = true) (hcls : a.cls = .base) :
    specEq a b = true := by
  have step : specEq a b = specEq a a := by
    rw [← specEq_scrub a b, ← h, specEq_scrub]
  rw [step]
  exact specEq_self a hwf hcls

/-- Folding never removes or replaces an existing registry binding: every
binding of the incoming registry survives unchanged in any successful
result. -/
theorem filter_preserves_bindings :
    ∀ (uo : UniqueObjects) (spec : JavaClassSpec) (bl : List String),
      ∀ uo', filter_unique_objects uo spec bl = some uo' →
        ∀ k v, dictLookup k uo = some v → dictLookup k uo' = some v := by
  refine filter_unique_objects.induct
    (fun uo spec bl => ∀ uo', filter_unique_objects uo spec bl = some uo' →
      ∀ k v, dictLookup k uo = some v → dictLookup k uo' = some v)
    (fun uo l bl => ∀ uo', filterFields uo l bl = some uo' →
      ∀ k v, dictLookup k uo = some v → dictLookup k uo' = some v)
    ?_ ?_ ?_ ?_ ?_ ?_ ?_ ?_ ?_
  · intro uo spec bl hbl uo' h k v hk
    rw [filter_unique_objects, if_pos hbl] at h
    cases h
    exact hk
  · intro uo spec bl hbl stored hst heq ih uo' h k v hk
    rw [filter_unique_objects, if_neg hbl] at h
    simp only [hst, heq, if_true] at h
    exact ih uo' h k v hk
  · intro uo spec bl hbl stored hst hne uo' h k v hk
    rw [filter_unique_objects, if_neg hbl] at h
    simp only [hst] at h
    rw [if_neg hne] at h
    cases h
  · intro uo spec bl hbl hnone ih uo' h k v hk
    rw [filter_unique_objects, if_neg hbl] at h
    simp only [hnone] at h
    refine ih uo' h k v ?_
    rw [dictLookup_dictInsert]
    have hkne : ¬ spec.msg_type = k := by
      intro he
      rw [he] at hnone
      rw [hnone] at hk
      cases hk
    rw [if_neg hkne]
    exact hk
  · intro uo x uo' h k v hk
    rw [filterFields] at h
    cases h
    exact hk
  · intro uo fst rest bl s hbase hfail ih uo' h k v hk
    rw [filterFields, if_pos hbase] at h
    simp only [hfail] at h
    cases h
  · intro uo fst rest bl s hbase uo1 hok ih1 ih2 uo' h k v hk
    rw [filterFields, if_pos hbase] at h
    simp only [hok] at h
    exact ih2 uo' h k v (ih1 uo1 hok k v hk)
  · intro uo fst rest bl s hbase ih uo' h k v hk
    rw [filterFields, if_neg hbase] at h
    exact ih uo' h k v hk
  · intro uo fst rest bl w ty sz ih uo' h k v hk
    rw [filterFields] at h
    exact ih uo' h k v hk

/-- The registry invariant behind C9: folding a plain (`cls = base`) spec
into a registry whose stored values are all plain keeps every stored value
plain — the recursion's exact-type check never lets a `JavaTimeSpec` or
`JavaDurationSpec` node reach the registry. -/
theorem filter_values_stay_base :
    ∀ (uo : UniqueObjects) (spec : JavaClassSpec) (bl : List String),
      spec.cls = .base → (∀ p ∈ uo, (p.2 : JavaClassSpec).cls = .base) →
      ∀ uo', filter_unique_objects uo spec bl = some uo' →
        ∀ p ∈ uo', (p.2 : JavaClassSpec).cls = .base := by
  refine filter_unique_objects.induct
    (fun uo spec bl => spec.cls = .base → (∀ p ∈ uo, (p.2 : JavaClassSpec).cls = .base) →
      ∀ uo', filter_unique_objects uo spec bl = some uo' →
        ∀ p ∈ uo', (p.2 : JavaClassSpec).cls = .base)
    (fun uo l bl => (∀ p ∈ uo, (p.2 : JavaClassSpec).cls = .base) →
      ∀ uo', filterFields uo l bl = some uo' →
        ∀ p ∈ uo', (p.2 : JavaClassSpec).cls = .base)
    ?_ ?_ ?_ ?_ ?_ ?_ ?_ ?_ ?_
  · intro uo spec bl hbl _ hall uo' h
    rw [filter_unique_objects, if_pos hbl] at h
    cases h
    exact hall
  · intro uo spec bl hbl stored hst heq ih hcls hall uo' h
    rw [filter_unique_objects, if_neg hbl] at h
    simp only [hst, heq, if_true] at h
    exact ih hall uo' h
  · intro uo spec bl hbl stored hst hne _ _ uo' h
    rw [filter_unique_objects, if_neg hbl] at h
    simp only [hst] at h
    rw [if_neg hne] at h
    cases h
  · intro uo spec bl hbl hnone ih hcls hall uo' h
    rw [filter_unique_objects, if_neg hbl] at h
    simp only [hnone] at h
    refine ih ?_ uo' h
    intro p hp
    rcases mem_dictInsert _ _ _ hp with hpe | hpm
    · rw [hpe]
      exact hcls
    · exact hall p hpm
  · intro uo x hall uo' h
    rw [filterFields] at h
    cases h
    exact hall
  · intro uo fst rest bl s hbase hfail ih hall uo' h
    rw [filterFields, if_pos hbase] at h
    simp only [hfail] at h
    cases h
  · intro uo fst rest bl s hbase uo1 hok ih1 ih2 hall uo' h
    rw [filterFields, if_pos hbase] at h
    simp only [hok] at h
    exact ih2 (ih1 hbase hall uo1 hok) uo' h
  · intro uo fst rest bl s hbase ih hall uo' h
    rw [filterFields, if_neg hbase] at h
    exact ih hall uo' h
  · intro uo fst rest bl w ty sz ih hall uo' h
    rw [filterFields] at h
    exact ih hall uo' h

/-- C3 (amended): with a type name already stored and not blacklisted,
folding a node with a different field set fails the inconsistent-schema
assertion (no registry survives); folding a structurally equal node passes
the assertion (the fold proceeds into the field recursion); and any
successful fold keeps the stored node bound to the name — the stored node is
never replaced (a fold of even a structurally equal node can still fail
inside the recursion when a nested composite conflicts with a different
stored entry, see the counterexample). -/
theorem fold_consistency_assertion (uo : UniqueObjects) (spec stored : JavaClassSpec)
    (bl : List String) (hnb : spec.msg_type ∉ bl)
    (hst : dictLookup spec.msg_type uo = some stored) :
    (specEq stored spec = false → filter_unique_objects uo spec bl = none) ∧
    (specEq stored spec = true →
      filter_unique_objects uo spec bl = filterFields uo spec.fields bl) ∧
    (∀ uo', filter_unique_objects uo spec bl = some uo' →
      dictLookup spec.msg_type uo' = some stored) := by
  refine ⟨?_, ?_, ?_⟩
  · intro hne
    rw [filter_unique_objects, if_neg hnb]
    simp only [hst]
    simp [hne]
  · intro heq
    rw [filter_unique_objects, if_neg hnb]
    simp only [hst, heq, if_true]
  · intro uo' h
    exact filter_preserves_bindings uo spec bl uo' h _ _ hst

/-- C4: a blacklisted type folds to the unchanged registry (nothing is added
to the unique-objects map, so no file is emitted for it), and the emitter's
per-field package-root selection addresses every field whose nested type
name is blacklisted through the externally supplied qualifier instead of the
locally computed package root. -/
theorem blacklist_excludes_and_routes_external (uo : UniqueObjects) (spec : JavaClassSpec)
    (bl : List String) (proj ext : String) (hbl : spec.msg_type ∈ bl) :
    filter_unique_objects uo spec bl = some uo ∧
    (∀ s : JavaClassSpec, s.msg_type ∈ bl →
      choosePackageRoot proj ext bl (.sub s) = ext) := by
  constructor
  · rw [filter_unique_objects, if_pos hbl]
  · intro s hs
    have hc : fieldInBlacklist (.sub s) bl = true := by
      rw [fieldInBlacklist]
      exact List.elem_eq_true_of_mem hs
    rw [choosePackageRoot, hc]
    simp

/-- C6: the resolver cache memoizes: on a well-formed name not yet cached,
`get_msg_class` performs the external lookup, stores the result, and a
repeated call with the updated cache returns the stored class without
invoking the resolver; a cached name is answered from the cache; and no
existing cache entry is ever replaced by a call. -/
theorem resolver_cache_memoizes (resolver : String → String → RosMessage)
    (cache : MsgClassCache) (msg_type_name : String) :
    (dictLookup msg_type_name cache = none →
      ∀ _h : (pySplitChar '/' msg_type_name.data).length = 2,
        ∃ cls cache',
          get_msg_class resolver cache msg_type_name = .ok (cls, cache', true) ∧
          dictLookup msg_type_name cache' = some cls ∧
          get_msg_class resolver cache' msg_type_name = .ok (cls, cache', false)) ∧
    (∀ cls, dictLookup msg_type_name cache = some cls →
      get_msg_class resolver cache msg_type_name = .ok (cls, cache, false)) ∧
    (∀ k v, dictLookup k cache = some v →
      ∀ r cache' flag, get_msg_class resolver cache msg_type_name = .ok (r, cache', flag) →
        dictLookup k cache' = some v) := by
  refine ⟨?_, ?_, ?_⟩
  · intro hnone _h
    refine ⟨resolver ((pySplitChar '/' msg_type_name.data).get ⟨0, by omega⟩ ++ ".msg")
        ((pySplitChar '/' msg_type_name.data).get ⟨1, by omega⟩),
      dictInsert msg_type_name
        (resolver ((pySplitChar '/' msg_type_name.data).get ⟨0, by omega⟩ ++ ".msg")
          ((pySplitChar '/' msg_type_name.data).get ⟨1, by omega⟩)) cache,
      ?_, ?_, ?_⟩
    · rw [get_msg_class]
      simp only [hnone]
      rw [dif_pos _h]
    · rw [dictLookup_dictInsert]
      simp
    · rw [get_msg_class]
      rw [dictLookup_dictInsert]
      simp
  · intro cls hsome
    rw [get_msg_class]
    simp only [hsome]
  · intro k v hk r cache' flag h
    rw [get_msg_class] at h
    cases hlk : dictLookup msg_type_name cache with
    | some cls =>
      simp only [hlk] at h
      cases h
      exact hk
    | none =>
      simp only [hlk] at h
      by_cases hlen : (pySplitChar '/' msg_type_name.data).length = 2
      · rw [dif_pos hlen] at h
        cases h
        rw [dictLookup_dictInsert]
        have hkne : ¬ msg_type_name = k := by
          intro he
          rw [he] at hlk
          rw [hlk] at hk
          cases hk
        rw [if_neg hkne]
        exact hk
      · rw [dif_neg hlen] at h
        cases h

/-! ## Tag classification facts (for C5) -/

/-- A bracket-group parse fails when the head is not `[`. -/
theorem parseBracketSize_ne {c : Char} (l : List Char) (h : ¬ c = '[') :
    parseBracketSize (c :: l) = none := by
  rw [parseBracketSize, if_neg h]

/-- No bracket anywhere, no match anywhere. -/
theorem scanBracketSizes_none (l : List Char) (h : ∀ c ∈ l, ¬ c = '[') :
    scanBracketSizes l = none := by
  induction l with
  | nil => rw [scanBracketSizes]
  | cons c rest ih =>
    rw [scanBracketSizes]
    rw [ih (fun d hd => h d (List.mem_cons_of_mem _ hd))]
    rw [parseBracketSize_ne rest (h c (List.mem_cons_self _ _))]

/-- `takeWhile`/`dropWhile` split at the first failing element. -/
theorem takeWhile_append_not (p : Char → Bool) (ds : List Char) (x : Char) (t : List Char)
    (hds : ∀ c ∈ ds, p c = true) (hx : p x = false) :
    (ds ++ x :: t).takeWhile p = ds ∧ (ds ++ x :: t).dropWhile p = x :: t := by
  induction ds with
  | nil => simp [List.takeWhile_cons, List.dropWhile_cons, hx]
  | cons d rest ih =>
    have hd := hds d (List.mem_cons_self _ _)
    obtain ⟨h1, h2⟩ := ih (fun c hc => hds c (List.mem_cons_of_mem _ hc))
    simp [List.takeWhile_cons, List.dropWhile_cons, hd, h1, h2]

/-- The parse succeeds on a `[digits]` group and returns the decimal value. -/
theorem parseBracketSize_bracket (ds t : List Char) (hne : ds ≠ [])
    (hdd : ∀ c ∈ ds, c.isDigit = true) :
    parseBracketSize ('[' :: (ds ++ ']' :: t)) = some (decimalValue ds) := by
  rw [parseBracketSize, if_pos rfl]
  obtain ⟨h1, h2⟩ := takeWhile_append_not Char.isDigit ds ']' t hdd (by decide)
  simp only [h1, h2]
  simp [hne]

/-- Characters of a digit run are never `[`. -/
theorem digit_ne_bracket {ds : List Char} (hdd : ∀ c ∈ ds, c.isDigit = true) :
    ∀ c ∈ ds, ¬ c = '[' := by
  intro c hc he
  have := hdd c hc
  rw [he] at this
  exact absurd this (by decide)

/-- The scan finds the `[digits]` group behind any bracket-free prefix
(nothing to its right can match). -/
theorem scanBracketSizes_bracket (pre ds t : List Char)
    (hpre : ∀ c ∈ pre, ¬ c = '[') (hne : ds ≠ []) (hdd : ∀ c ∈ ds, c.isDigit = true)
    (ht : ∀ c ∈ t, ¬ c = '[') :
    scanBracketSizes (pre ++ '[' :: (ds ++ ']' :: t)) = some (decimalValue ds) := by
  induction pre with
  | nil =>
    rw [List.nil_append, scanBracketSizes]
    have hrest : scanBracketSizes (ds ++ ']' :: t) = none := by
      apply scanBracketSizes_none
      intro c hc
      rcases List.mem_append.mp hc with h | h
      · exact digit_ne_bracket hdd c h
      · rcases List.mem_cons.mp h with h | h
        · rw [h]; decide
        · exact ht c h
    rw [hrest, parseBracketSize_bracket ds t hne hdd]
  | cons c rest ih =>
    rw [List.cons_append, scanBracketSizes]
    rw [ih (fun d hd => hpre d (List.mem_cons_of_mem _ hd))]

/-- The scan finds nothing when the only bracket group is the empty `[]`. -/
theorem scanBracketSizes_empty_group (pre t : List Char)
    (hpre : ∀ c ∈ pre, ¬ c = '[') (ht : ∀ c ∈ t, ¬ c = '[') :
    scanBracketSizes (pre ++ '[' :: ']' :: t) = none := by
  induction pre with
  | nil =>
    rw [List.nil_append, scanBracketSizes]
    have hrest : scanBracketSizes (']' :: t) = none := by
      apply scanBracketSizes_none
      intro c hc
      rcases List.mem_cons.mp hc with h | h
      · rw [h]; decide
      · exact ht c h
    rw [hrest]
    rw [parseBracketSize, if_pos rfl]
    simp [List.takeWhile_cons, List.dropWhile_cons]
  | cons c rest ih =>
    rw [List.cons_append, scanBracketSizes]
    rw [ih (fun d hd => hpre d (List.mem_cons_of_mem _ hd))]
    rw [parseBracketSize_ne _ (hpre c (List.mem_cons_self _ _))]

/-- `rfind` misses when the character does not occur. -/
theorem pyRfind_not_mem (c : Char) (l : List Char) (h : ∀ x ∈ l, ¬ x = c) :
    pyRfind c l = -1 := by
  induction l with
  | nil => rw [pyRfind]
  | cons x rest ih =>
    rw [pyRfind]
    have h1 := ih (fun y hy => h y (List.mem_cons_of_mem _ hy))
    have h2 := h x (List.mem_cons_self _ _)
    simp [h1, h2]

/-- `rfind` returns the position of the unique occurrence. -/
theorem pyRfind_append (c : Char) (base t : List Char) (hb : ∀ x ∈ base, ¬ x = c)
    (ht : ∀ x ∈ t, ¬ x = c) : pyRfind c (base ++ c :: t) = (base.length : Int) := by
  induction base with
  | nil =>
    rw [List.nil_append, pyRfind]
    rw [pyRfind_not_mem c t ht]
    simp
  | cons x rest ih =>
    rw [List.cons_append, pyRfind]
    rw [ih (fun y hy => hb y (List.mem_cons_of_mem _ hy))]
    have hnn : ((rest.length : Int)) ≥ 0 := by positivity
    rw [if_pos hnn]
    simp only [List.length_cons]
    push_cast
    ring

/-- C5: the builder's list-shape classification of a field type tag: a bare
name (no brackets) is a scalar with size -1 and an unchanged base type name;
`name[]` is a variable list with size 0; `name[digits]` is a fixed list
whose size is the decimal value of the digits; in both list forms the base
type name used for primitive/composite dispatch is the tag with the
trailing bracket suffix stripped. -/
theorem tag_classification (base ds : List Char) (hne : base ≠ [])
    (hnb : ∀ c ∈ base, ¬ c = '[' ∧ ¬ c = ']')
    (hdne : ds ≠ []) (hdd : ∀ c ∈ ds, c.isDigit = true) :
    classifyFieldTag ⟨base⟩ = (-1, ⟨base⟩) ∧
    classifyFieldTag ⟨base ++ ['[', ']']⟩ = (0, ⟨base⟩) ∧
    classifyFieldTag ⟨base ++ '[' :: (ds ++ [']'])⟩ = ((decimalValue ds : Int), ⟨base⟩) := by
  have hnbl : ∀ c ∈ base, ¬ c = '[' := fun c hc => (hnb c hc).1
  refine ⟨?_, ?_, ?_⟩
  · have hlast : base.getLast? = some (base.getLast hne) := List.getLast?_eq_getLast base hne
    have hnr : ¬ ((⟨base⟩ : String).data.getLast? = some ']') := by
      show ¬ (base.getLast? = some ']')
      rw [hlast]
      intro hco
      injection hco with hco
      exact (hnb _ (List.getLast_mem hne)).2 hco
    have hfalse : is_msg_type_list ⟨base⟩ = false := by
      rw [is_msg_type_list]
      exact decide_eq_false hnr
    rw [classifyFieldTag, hfalse]
    simp
  · have htrue : is_msg_type_list ⟨base ++ ['[', ']']⟩ = true := by
      rw [is_msg_type_list]
      apply decide_eq_true
      show (base ++ ['[', ']']).getLast? = some ']'
      rw [show (base ++ ['[', ']'] : List Char) = (base ++ ['[']) ++ [']'] by simp]
      exact List.getLast?_concat _
    rw [classifyFieldTag, htrue]
    simp only [if_true]
    cases base with
    | nil => exact absurd rfl hne
    | cons b0 base' =>
      have hb' : ∀ c ∈ base', ¬ c = '[' := fun c hc => hnbl c (List.mem_cons_of_mem _ hc)
      rw [Prod.mk.injEq]
      constructor
      · show get_list_size ⟨b0 :: (base' ++ ['[', ']'])⟩ = 0
        rw [get_list_size]
        simp only
        rw [show (base' ++ ['[', ']'] : List Char) = base' ++ '[' :: ']' :: [] by simp]
        rw [scanBracketSizes_empty_group base' [] hb' (by simp)]
      · show get_list_type ⟨b0 :: base' ++ ['[', ']']⟩ = ⟨b0 :: base'⟩
        rw [get_list_type, if_pos htrue]
        simp only
        rw [show (b0 :: base' ++ ['[', ']'] : List Char) = (b0 :: base') ++ '[' :: [']'] by simp]
        rw [pyRfind_append '[' (b0 :: base') [']'] hnbl (by simp)]
        rw [if_pos (by positivity)]
        simp only [Int.toNat_natCast]
        rw [List.take_left]
  · have hds_ne : ∀ c ∈ ds ++ [']'], ¬ c = '[' := by
      intro c hc
      rcases List.mem_append.mp hc with h | h
      · exact digit_ne_bracket hdd c h
      · rcases List.mem_cons.mp h with h | h
        · rw [h]; decide
        · cases h
    have htrue : is_msg_type_list ⟨base ++ '[' :: (ds ++ [']'])⟩ = true := by
      rw [is_msg_type_list]
      apply decide_eq_true
      show (base ++ '[' :: (ds ++ [']'])).getLast? = some ']'
      rw [show (base ++ '[' :: (ds ++ [']']) : List Char) = (base ++ '[' :: ds) ++ [']'] by simp]
      exact List.getLast?_concat _
    rw [classifyFieldTag, htrue]
    simp only [if_true]
    cases base with
    | nil => exact absurd rfl hne
    | cons b0 base' =>
      have hb' : ∀ c ∈ base', ¬ c = '[' := fun c hc => hnbl c (List.mem_cons_of_mem _ hc)
      rw [Prod.mk.injEq]
      constructor
      · show get_list_size ⟨b0 :: (base' ++ '[' :: (ds ++ [']']))⟩ = ((decimalValue ds : Int))
        rw [get_list_size]
        simp only
        rw [show (base' ++ '[' :: (ds ++ [']']) : List Char) =
          base' ++ '[' :: (ds ++ ']' :: []) by simp]
        rw [scanBracketSizes_bracket base' ds [] hb' hdne hdd (by simp)]
      · show get_list_type ⟨b0 :: base' ++ '[' :: (ds ++ [']'])⟩ = ⟨b0 :: base'⟩
        rw [get_list_type, if_pos htrue]
        simp only
        rw [show (b0 :: base' ++ '[' :: (ds ++ [']']) : List Char) =
          (b0 :: base') ++ '[' :: (ds ++ [']']) by simp]
        rw [pyRfind_append '[' (b0 :: base') (ds ++ [']']) hnbl hds_ne]
        rw [if_pos (by positivity)]
        simp only [Int.toNat_natCast]
        rw [List.take_left]

/-- C1 (amended): a field whose stripped base type name is `time` or
`duration` is never resolved through the external resolver — the cache is
returned untouched and the result is the same for every resolver — and the
field always becomes the fixed two-field composite `JavaTimeSpec` /
`JavaDurationSpec`: `msg_type` "Time"/"Duration", two scalar 32-bit-integer
(`int`) fields `secs` and `nsecs` with default 0. The synthesized composite
is always scalar (`size = -1`) regardless of any `[]`/`[N]` suffix on the
original tag: the temporal field's own list shape is NOT preserved (see the
counterexample). -/
theorem temporal_fields_synthesize_fixed_scalar_composite
    (resolver : String → String → RosMessage) (fuel : Nat) (cache : MsgClassCache)
    (class_spec : JavaClassSpec) (name tag : String) (value : PyValue) :
    ((classifyFieldTag tag).2 = "time" →
      processField resolver fuel cache class_spec (name, tag, value) =
        some (class_spec.add_sub_spec name javaTimeSpec, cache)) ∧
    ((classifyFieldTag tag).2 = "duration" →
      processField resolver fuel cache class_spec (name, tag, value) =
        some (class_spec.add_sub_spec name javaDurationSpec, cache)) ∧
    javaTimeSpec.size = -1 ∧ javaDurationSpec.size = -1 ∧
    javaTimeSpec.fields = [("secs", .msgField (.pyInt 0) .int (-1)),
      ("nsecs", .msgField (.pyInt 0) .int (-1))] ∧
    javaDurationSpec.fields = [("secs", .msgField (.pyInt 0) .int (-1)),
      ("nsecs", .msgField (.pyInt 0) .int (-1))] ∧
    javaTimeSpec.msg_type = "Time" ∧ javaDurationSpec.msg_type = "Duration" := by
  refine ⟨?_, ?_, rfl, rfl, rfl, rfl, rfl, rfl⟩
  · intro h
    simp only [processField]
    rw [h]
    rw [show rosPrimitiveOfString "time" = some RosPrimitive.time from rfl]
  · intro h
    simp only [processField]
    rw [h]
    rw [show rosPrimitiveOfString "duration" = some RosPrimitive.duration from rfl]

/-- C1 as stated fails on the code: the builder's output for the
variable-list tag `time[]` — whose list shape is variable (size 0) — is the
scalar composite `JavaTimeSpec` with size -1: the temporal field's list
shape is not preserved. -/
theorem time_list_shape_not_preserved :
    processField (fun _ _ => ⟨[], []⟩) 0 [] (JavaClassSpec.new "pkg/A" (-1))
        ("stamps", "time[]", .pyInt 0) =
      some ((JavaClassSpec.new "pkg/A" (-1)).add_sub_spec "stamps" javaTimeSpec, []) ∧
    classifyFieldTag "time[]" = (0, "time") ∧
    ((JavaClassSpec.new "pkg/A" (-1)).add_sub_spec "stamps" javaTimeSpec).fields =
      [("stamps", .sub javaTimeSpec)] ∧
    javaTimeSpec.size = -1 ∧ ¬ javaTimeSpec.size = 0 := by
  refine ⟨?_, rfl, rfl, rfl, by decide⟩
  · simp only [processField]
    rw [show classifyFieldTag "time[]" = ((0 : Int), "time") from rfl]
    rfl

/-- Sorting with `≤` on strings is invariant under permutation of the
input: once sorted, the import set's enumeration order does not matter. -/
theorem insertionSort_eq_of_perm {l₁ l₂ : List String} (h : l₁.Perm l₂) :
    List.insertionSort (fun a b : String => a ≤ b) l₁ =
    List.insertionSort (fun a b : String => a ≤ b) l₂ := by
  refine List.eq_of_perm_of_sorted ?_ (List.sorted_insertionSort _ l₁)
    (List.sorted_insertionSort _ l₂)
  exact (List.perm_insertionSort _ l₁).trans (h.trans (List.perm_insertionSort _ l₂).symm)

/-- C2: the emitter is deterministic: two runs on identical class spec,
output path, external package and blacklist produce identical (path, source)
results, even across different enumeration orders of the Python import set
(any two permutation-enumerations give byte-identical output). -/
theorem emitter_deterministic (σ₁ σ₂ : List String → List String)
    (h₁ : ∀ l, (σ₁ l).Perm l) (h₂ : ∀ l, (σ₂ l).Perm l)
    (path : String) (spec : JavaClassSpec) (external_package : String)
    (blacklist : List String) :
    generate_java_code_from_spec σ₁ path spec external_package blacklist =
    generate_java_code_from_spec σ₂ path spec external_package blacklist := by
  unfold generate_java_code_from_spec
  cases hgp : generatePieces path spec external_package blacklist with
  | none => rfl
  | some p =>
    simp only
    rw [insertionSort_eq_of_perm ((h₁ p.imports).trans (h₂ p.imports).symm)]

/-- The emitter's field loop contributes exactly one constructor argument
per field. -/
theorem emitFields_arg_count (proj ext : String) (bl : List String) :
    ∀ (l : List (String × JavaField)) (acc acc' : LoopAcc),
      emitFields proj ext bl acc l = some acc' →
      acc'.arg_strings.length = acc.arg_strings.length + l.length := by
  intro l
  induction l with
  | nil =>
    intro acc acc' h
    rw [emitFields] at h
    cases h
    simp
  | cons p rest ih =>
    intro acc acc' h
    obtain ⟨name, field⟩ := p
    simp only [emitFields] at h
    cases hg : generateFieldCode acc.imports (choosePackageRoot proj ext bl field) name field with
    | none =>
      rw [hg] at h
      cases h
    | some pr =>
      rw [hg] at h
      obtain ⟨imports', r⟩ := pr
      have hlen := ih _ _ h
      simp only [List.length_append, List.length_cons, List.length_nil] at hlen ⊢
      omega

/-- A nonempty arg list yields a nonempty constructor block. -/
theorem argsConstructorBlock_ne_empty (cn args aa : String) (n : Nat) (h : 0 < n) :
    argsConstructorBlock cn args aa n ≠ "" := by
  rw [argsConstructorBlock, if_pos h]
  intro he
  have hl := congrArg String.length he
  simp only [String.length_append] at hl
  have h1 : ("\n" : String).length = 1 := rfl
  have h2 : ("" : String).length = 0 := rfl
  rw [h1, h2] at hl
  omega

/-- C10: the generated source contains the full-argument constructor exactly
when the spec has at least one field: the constructor-argument list has one
entry per field, the spliced constructor block is empty for a zero-field
spec and nonempty otherwise, and the emitted source is exactly the text
before the block, the block, and the text after it. -/
theorem full_arg_constructor_iff_fields (σ : List String → List String) (path : String)
    (spec : JavaClassSpec) (external_package : String) (blacklist : List String)
    (p : EmitterPieces) (hp : generatePieces path spec external_package blacklist = some p) :
    p.arg_strings.length = spec.fields.length ∧
    (spec.fields = [] →
      argsConstructorBlock p.class_name (String.intercalate ", " p.arg_strings)
        (dropLastChar p.arg_assignment) p.arg_strings.length = "") ∧
    (spec.fields ≠ [] →
      argsConstructorBlock p.class_name (String.intercalate ", " p.arg_strings)
        (dropLastChar p.arg_assignment) p.arg_strings.length ≠ "") ∧
    generate_java_code_from_spec σ path spec external_package blacklist =
      some (p.package_name ++ "/" ++ p.class_name ++ ".java",
        codeBeforeArgsCtor p.project_package_root p.package_name
          (String.intercalate "\n" (List.insertionSort (fun a b : String => a ≤ b) (σ p.imports)))
          p.class_name external_package p.constants_code p.fields_code spec.msg_type ++
        argsConstructorBlock p.class_name (String.intercalate ", " p.arg_strings)
          (dropLastChar p.arg_assignment) p.arg_strings.length ++
        codeAfterArgsCtor p.class_name (dropLastChar p.json_constructor) p.getters p.setters) := by
  have hcount : p.arg_strings.length = spec.fields.length := by
    rw [generatePieces] at hp
    rcases hs : pySplitChar '/' spec.msg_type.data with _ | ⟨pn, rest1⟩
    · rw [hs] at hp
      cases hp
    · rcases rest1 with _ | ⟨cn, rest2⟩
      · rw [hs] at hp
        cases hp
      · rcases rest2 with _ | ⟨x, rest3⟩
        · rw [hs] at hp
          simp only at hp
          cases hef : emitFields (get_package_root path) external_package blacklist
              ⟨[], "", [], "", "", "", ""⟩ spec.fields with
          | none =>
            rw [hef] at hp
            cases hp
          | some acc =>
            rw [hef] at hp
            have hl := emitFields_arg_count (get_package_root path) external_package blacklist
              spec.fields _ _ hef
            simp only at hl
            injection hp with hp
            subst hp
            simpa using hl
        · rw [hs] at hp
          cases hp
  refine ⟨hcount, ?_, ?_, ?_⟩
  · intro hz
    rw [argsConstructorBlock]
    have : ¬ 0 < p.arg_strings.length := by
      rw [hcount, hz]
      simp
    rw [if_neg this]
  · intro hnz
    apply argsConstructorBlock_ne_empty
    rw [hcount]
    cases hf : spec.fields with
    | nil => exact absurd hf hnz
    | cons q qs => simp [hf]
  · unfold generate_java_code_from_spec
    rw [hp]
    simp only [renderFromPieces]

/-! ## Concrete instances for witnesses and counterexamples -/

/-- A one-int-field spec named `pkg/B` (default 0). -/
def specBStored : JavaClassSpec :=
  (JavaClassSpec.new "pkg/B" (-1)).add_field "x" (.pyInt 0) .int (-1)

/-- A spec with the same name but a different default for `x`. -/
def specBClash : JavaClassSpec :=
  (JavaClassSpec.new "pkg/B" (-1)).add_field "x" (.pyInt 1) .int (-1)

/-- A spec whose composite field carries the clashing `pkg/B` node. -/
def specAWithB : JavaClassSpec :=
  (JavaClassSpec.new "pkg/A" (-1)).add_sub_spec "b" specBClash

/-- A registry holding `specAWithB` and a `pkg/B` node that conflicts with
the one nested inside `specAWithB`. -/
def registryWithConflict : UniqueObjects :=
  [("pkg/A", specAWithB), ("pkg/B", specBStored)]

/-- Witness for the amended C1 at the scalar tag `time`. -/
theorem temporal_fields_witness :
    (classifyFieldTag "time").2 = "time" ∧
    processField (fun _ _ => ⟨[], []⟩) 3 [] (JavaClassSpec.new "pkg/B" (-1))
        ("stamp", "time", .pyInt 0) =
      some ((JavaClassSpec.new "pkg/B" (-1)).add_sub_spec "stamp" javaTimeSpec, []) :=
  ⟨rfl, (temporal_fields_synthesize_fixed_scalar_composite (fun _ _ => ⟨[], []⟩) 3 []
      (JavaClassSpec.new "pkg/B" (-1)) "stamp" "time" (.pyInt 0)).1 rfl⟩

/-- Witness for C2 with the identity enumeration of the import set. -/
theorem emitter_deterministic_witness :
    (∀ l : List String, (id l).Perm l) ∧
    generate_java_code_from_spec id "frc/team88/ros/messages" specBStored
        "frc.team88.ros." [] =
      generate_java_code_from_spec id "frc/team88/ros/messages" specBStored
        "frc.team88.ros." [] :=
  ⟨fun l => List.Perm.refl l,
    emitter_deterministic id id (fun l => List.Perm.refl l) (fun l => List.Perm.refl l)
      "frc/team88/ros/messages" specBStored "frc.team88.ros." []⟩

/-- Witness for the amended C3: a conflicting default on the same type name
fails the fold. -/
theorem fold_consistency_assertion_witness :
    (specBClash.msg_type ∉ ([] : List String)) ∧
    dictLookup specBClash.msg_type [("pkg/B", specBStored)] = some specBStored ∧
    specEq specBStored specBClash = false ∧
    filter_unique_objects [("pkg/B", specBStored)] specBClash [] = none := by
  have hne : specEq specBStored specBClash = false := by
    simp [specBStored, specBClash, JavaClassSpec.new, JavaClassSpec.add_field, dictInsert,
      specEq, fieldsMatch, fieldPairOk, keySetEq, keysOf, dictLookup, pyTypeOf, pyValueEq]
  refine ⟨by simp, rfl, hne, ?_⟩
  exact (fold_consistency_assertion [("pkg/B", specBStored)] specBClash specBStored []
    (by simp) rfl).1 hne

/-- C3 as stated fails on the code: folding a node structurally equal to
its stored entry can still abort, because the fold re-folds nested
composite fields against other stored entries: `pkg/A` is stored and
`__eq__`-equal to itself, yet folding it fails since its nested `pkg/B`
node conflicts with the separately stored `pkg/B`. -/
theorem fold_equal_node_can_fail :
    dictLookup "pkg/A" registryWithConflict = some specAWithB ∧
    specEq specAWithB specAWithB = true ∧
    filter_unique_objects registryWithConflict specAWithB [] = none := by
  have heq : specEq specAWithB specAWithB = true := by
    simp [specAWithB, specBClash, JavaClassSpec.new, JavaClassSpec.add_field,
      JavaClassSpec.add_sub_spec, dictInsert, specEq, fieldsMatch, fieldPairOk, keySetEq,
      keysOf, dictLookup, pyTypeOf, pyValueEq, JavaClassSpec.cls]
  have hfail : filter_unique_objects registryWithConflict specAWithB [] = none := by
    simp [registryWithConflict, specAWithB, specBClash, specBStored, JavaClassSpec.new,
      JavaClassSpec.add_field, JavaClassSpec.add_sub_spec, dictInsert,
      filter_unique_objects, filterFields, specEq, fieldsMatch, fieldPairOk, keySetEq,
      keysOf, dictLookup, pyTypeOf, pyValueEq, JavaClassSpec.cls, JavaClassSpec.msg_type,
      JavaClassSpec.fields]
  exact ⟨rfl, heq, hfail⟩

/-- Witness for C4: the blacklisted `pkg/B` adds nothing and routes to the
external qualifier. -/
theorem blacklist_excludes_witness :
    specBStored.msg_type ∈ ["pkg/B"] ∧
    (filter_unique_objects [] specBStored ["pkg/B"] = some [] ∧
      (∀ s : JavaClassSpec, s.msg_type ∈ ["pkg/B"] →
        choosePackageRoot "frc.team88.ros.messages." "frc.team88.ros." ["pkg/B"] (.sub s) =
          "frc.team88.ros.")) :=
  ⟨by simp [specBStored, JavaClassSpec.new, JavaClassSpec.add_field, JavaClassSpec.msg_type,
      dictInsert],
    blacklist_excludes_and_routes_external [] specBStored ["pkg/B"]
      "frc.team88.ros.messages." "frc.team88.ros."
      (by simp [specBStored, JavaClassSpec.new, JavaClassSpec.add_field, JavaClassSpec.msg_type,
        dictInsert])⟩

/-- Witness for C5 at the tags `int32`, `int32[]` and `int32[3]`. -/
theorem tag_classification_witness :
    ("int32".data ≠ [] ∧ (∀ c ∈ "int32".data, ¬ c = '[' ∧ ¬ c = ']') ∧
      (['3'] : List Char) ≠ [] ∧ (∀ c ∈ (['3'] : List Char), c.isDigit = true)) ∧
    classifyFieldTag "int32" = (-1, "int32") ∧
    classifyFieldTag "int32[]" = (0, "int32") ∧
    classifyFieldTag "int32[3]" = (3, "int32") := by
  have h := tag_classification "int32".data ['3'] (by decide) (by decide) (by decide) (by decide)
  exact ⟨⟨by decide, by decide, by decide, by decide⟩, h.1, h.2.1, h.2.2⟩

/-- Witness for C6 at the name `nav_msgs/Odometry` on an empty cache. -/
theorem resolver_cache_memoizes_witness :
    dictLookup "nav_msgs/Odometry" ([] : MsgClassCache) = none ∧
    (pySplitChar '/' "nav_msgs/Odometry".data).length = 2 ∧
    (∃ cls cache',
      get_msg_class (fun _ _ => ⟨[], []⟩) [] "nav_msgs/Odometry" = .ok (cls, cache', true) ∧
      dictLookup "nav_msgs/Odometry" cache' = some cls ∧
      get_msg_class (fun _ _ => ⟨[], []⟩) cache' "nav_msgs/Odometry" = .ok (cls, cache', false)) :=
  ⟨rfl, rfl,
    (resolver_cache_memoizes (fun _ _ => ⟨[], []⟩) [] "nav_msgs/Odometry").1 rfl rfl⟩

/-- A spec whose observable data matches `specEqW2` while `msg_type`,
`size`, constants and the field's list size differ. -/
def specEqW1 : JavaClassSpec :=
  ((JavaClassSpec.new "pkg/C" (-1)).add_field "x" (.pyInt 0) .int (-1)).add_constant
    "K" (.pyInt 1)

/-- Counterpart of `specEqW1` differing in everything `__eq__` ignores. -/
def specEqW2 : JavaClassSpec :=
  (JavaClassSpec.new "pkg/D" 0).add_field "x" (.pyInt 0) .int 5

/-- Witness for C7: the two specs differ in `msg_type`, `size`, constants
and the field's list size, yet are `__eq__`-equal. -/
theorem specEq_ignores_unobserved_witness :
    scrubSpec specEqW1 = scrubSpec specEqW2 ∧
    specWF specEqW1 = true ∧ specEqW1.cls = .base ∧
    (specEqW1.msg_type ≠ specEqW2.msg_type ∧ specEqW1.size ≠ specEqW2.size ∧
      specEqW1.constants ≠ specEqW2.constants) ∧
    specEq specEqW1 specEqW2 = true := by
  have hs : scrubSpec specEqW1 = scrubSpec specEqW2 := by
    simp [specEqW1, specEqW2, JavaClassSpec.new, JavaClassSpec.add_field,
      JavaClassSpec.add_constant, dictInsert, scrubSpec, scrubFields, scrubField]
  have hwf : specWF specEqW1 = true := by
    simp [specEqW1, JavaClassSpec.new, JavaClassSpec.add_field, JavaClassSpec.add_constant,
      dictInsert, specWF, fieldsWF, fieldWF, keysNodup]
  exact ⟨hs, hwf, rfl, ⟨by decide, by decide, by decide⟩,
    specEq_ignores_unobserved_data specEqW1 specEqW2 hs hwf rfl⟩

/-- Two-field spec `x` then `y`. -/
def orderW1 : JavaClassSpec :=
  ((JavaClassSpec.new "pkg/E" (-1)).add_field "x" (.pyInt 0) .int (-1)).add_field
    "y" (.pyBool true) .boolean (-1)

/-- The same two fields inserted `y` then `x`. -/
def orderW2 : JavaClassSpec :=
  ((JavaClassSpec.new "pkg/E" (-1)).add_field "y" (.pyBool true) .boolean (-1)).add_field
    "x" (.pyInt 0) .int (-1)

/-- Witness for C8: swapping the insertion order of two fields leaves the
specs `__eq__`-equal. -/
theorem specEq_field_order_witness :
    orderW1.fields.Perm orderW2.fields ∧ orderW2.cls = .base ∧ specWF orderW1 = true ∧
    specEq orderW1 orderW2 = true := by
  have hp : orderW1.fields.Perm orderW2.fields := List.Perm.swap _ _ []
  have hwf : specWF orderW1 = true := by
    simp [orderW1, JavaClassSpec.new, JavaClassSpec.add_field, dictInsert, specWF,
      fieldsWF, fieldWF, keysNodup]
  exact ⟨hp, rfl, hwf, specEq_insensitive_to_field_order orderW1 orderW2 hp rfl hwf⟩

/-- A plain spec holding a synthesized temporal composite field. -/
def timeHolder : JavaClassSpec :=
  (JavaClassSpec.new "pkg/F" (-1)).add_sub_spec "stamp" javaTimeSpec

/-- Witness for C9: folding a builder-produced spec with a `time` field
registers the spec itself but never the `JavaTimeSpec` node. -/
theorem filter_values_stay_base_witness :
    timeHolder.cls = .base ∧
    (∀ p ∈ ([] : UniqueObjects), (p.2 : JavaClassSpec).cls = .base) ∧
    filter_unique_objects [] timeHolder [] = some [("pkg/F", timeHolder)] ∧
    (∀ p ∈ [("pkg/F", timeHolder)], (p.2 : JavaClassSpec).cls = .base) := by
  have hf : filter_unique_objects [] timeHolder [] = some [("pkg/F", timeHolder)] := by
    simp [timeHolder, javaTimeSpec, JavaClassSpec.new, JavaClassSpec.add_field,
      JavaClassSpec.add_sub_spec, dictInsert, filter_unique_objects, filterFields,
      dictLookup, JavaClassSpec.cls, JavaClassSpec.msg_type, JavaClassSpec.fields]
  exact ⟨rfl, by simp, hf,
    filter_values_stay_base [] timeHolder [] rfl (by simp) [("pkg/F", timeHolder)] hf⟩

/-- The emitter pieces of the zero-field spec `a/B` at output path `x`. -/
def piecesAB : EmitterPieces :=
  ⟨"a", "B", "x.",
    ["import com.google.gson.JsonObject;", "import com.google.gson.annotations.Expose;"],
    "", [], "", "", "", "", ""⟩

/-- Witness for C10 at a zero-field spec: the args-constructor block is
empty. -/
theorem full_arg_constructor_witness :
    generatePieces "x" (JavaClassSpec.new "a/B" (-1)) "ext." [] = some piecesAB ∧
    piecesAB.arg_strings.length = (JavaClassSpec.new "a/B" (-1)).fields.length ∧
    argsConstructorBlock piecesAB.class_name (String.intercalate ", " piecesAB.arg_strings)
      (dropLastChar piecesAB.arg_assignment) piecesAB.arg_strings.length = "" := by
  have hp : generatePieces "x" (JavaClassSpec.new "a/B" (-1)) "ext." [] = some piecesAB := rfl
  have h := full_arg_constructor_iff_fields id "x" (JavaClassSpec.new "a/B" (-1)) "ext." []
    piecesAB hp
  exact ⟨hp, h.1, h.2.1 rfl⟩
